import Mathlib

/-!
# Request dispatch of the language server

A shallow embedding of `main/lsp/request_dispatch.cc` and of the declarations of
`main/lsp/lsp.h` it relies on.

Conventions of the embedding

* A `std::string` is a Lean `String`; one `Char` stands for one C++ `char`, so
  offsets into `String.data` are the byte offsets of the source.
* The `LSPLoop` object is passed explicitly. Its members that the dispatcher
  assigns are fields of `LSPLoop`; every call to a member function whose body is
  not part of `request_dispatch.cc` (the typecheck engine, the query handlers,
  the functions writing to the client) is appended to the field `trace`, in
  call order, with its arguments. The values such calls return are taken from
  `Env`, and may depend on the whole `LSPLoop` value at the time of the call,
  hence on everything that was called before.
* `unique_ptr<core::GlobalState>` is an abstract type `GS`; JSON values are an
  abstract type `Json`; the diagnostics part of a `TypecheckRun` is an abstract
  type `P`; the typed parameter objects handed to query handlers are an
  abstract type `Q`.
* A C++ exception is an `Except.error`: `DeserializationError` carries its
  `what()` text, `std::out_of_range` is what `std::string::replace` throws.
* `ENFORCE` is an assertion of debug builds; the embedding follows the release
  build, where it evaluates nothing. Logging, timers and metric counters have
  no effect on the values modelled here and are left out.
-/

namespace SorbetLSP

/-! ## `LSPMethod` and `LSPErrorCodes` (lsp.h) -/

/-- Who initiates a request (`LSPMethod::Kind`). -/
inductive LSPMethod.Kind where
  | ServerInitiated
  | ClientInitiated
  | Both
deriving DecidableEq, Repr

/-- The structure `LSPMethod` of lsp.h. -/
structure LSPMethod where
  name : String
  isNotification : Bool
  kind : LSPMethod.Kind
  isSupported : Bool := true
deriving DecidableEq, Repr

namespace LSPMethod

/-- The comparison `operator==` of `LSPMethod`: the names alone are compared. -/
def eq (self other : LSPMethod) : Bool := decide (other.name = self.name)

def CancelRequest : LSPMethod := { name := "$/cancelRequest", isNotification := true, kind := .Both }
def Initialize : LSPMethod := { name := "initialize", isNotification := false, kind := .ClientInitiated }
def Initialized : LSPMethod := { name := "initialized", isNotification := true, kind := .ClientInitiated }
def Shutdown : LSPMethod := { name := "shutdown", isNotification := false, kind := .ClientInitiated }
def Exit : LSPMethod := { name := "exit", isNotification := true, kind := .ClientInitiated }
def RegisterCapability : LSPMethod :=
  { name := "client/registerCapability", isNotification := false, kind := .ServerInitiated }
def UnRegisterCapability : LSPMethod :=
  { name := "client/unregisterCapability", isNotification := false, kind := .ServerInitiated }
def DidChangeWatchedFiles : LSPMethod :=
  { name := "workspace/didChangeWatchedFiles", isNotification := true, kind := .ClientInitiated }
def PushDiagnostics : LSPMethod :=
  { name := "textDocument/publishDiagnostics", isNotification := true, kind := .ServerInitiated }
def TextDocumentDidOpen : LSPMethod :=
  { name := "textDocument/didOpen", isNotification := true, kind := .ClientInitiated }
def TextDocumentDidChange : LSPMethod :=
  { name := "textDocument/didChange", isNotification := true, kind := .ClientInitiated }
def TextDocumentDidClose : LSPMethod :=
  { name := "textDocument/didClose", isNotification := true, kind := .ClientInitiated }
def TextDocumentDocumentSymbol : LSPMethod :=
  { name := "textDocument/documentSymbol", isNotification := false, kind := .ClientInitiated }
def TextDocumentDefinition : LSPMethod :=
  { name := "textDocument/definition", isNotification := false, kind := .ClientInitiated }
def TextDocumentHover : LSPMethod :=
  { name := "textDocument/hover", isNotification := false, kind := .ClientInitiated }
def TextDocumentCompletion : LSPMethod :=
  { name := "textDocument/completion", isNotification := false, kind := .ClientInitiated }
def TextDocumentRefernces : LSPMethod :=
  { name := "textDocument/references", isNotification := false, kind := .ClientInitiated }
def TextDocumentSignatureHelp : LSPMethod :=
  { name := "textDocument/signatureHelp", isNotification := false, kind := .ClientInitiated }
def WorkspaceSymbols : LSPMethod :=
  { name := "workspace/symbol", isNotification := false, kind := .ClientInitiated }
def WindowShowMessage : LSPMethod :=
  { name := "window/showMessage", isNotification := true, kind := .ServerInitiated }
def Pause : LSPMethod := { name := "__PAUSE__", isNotification := true, kind := .ClientInitiated }
def Resume : LSPMethod := { name := "__RESUME__", isNotification := true, kind := .ClientInitiated }
def SorbetWatchmanFileChange : LSPMethod :=
  { name := "sorbet/watchmanFileChange", isNotification := true, kind := .ClientInitiated }
def SorbetWatchmanExit : LSPMethod :=
  { name := "sorbet/watchmanExit", isNotification := true, kind := .ClientInitiated }
def SorbetShowOperation : LSPMethod :=
  { name := "sorbet/showOperation", isNotification := true, kind := .ServerInitiated }

end LSPMethod

/-- The enumeration `LSPErrorCodes` of lsp.h, as the integer each enumerator stands for. -/
inductive LSPErrorCodes where
  | ParseError
  | InvalidRequest
  | MethodNotFound
  | InvalidParams
  | InternalError
  | ServerErrorStart
  | ServerErrorEnd
  | ServerNotInitialized
  | UnknownErrorCode
  | RequestCancelled
deriving DecidableEq, Repr

/-- The cast `(int)LSPErrorCodes::X`. -/
def LSPErrorCodes.toInt : LSPErrorCodes → Int
  | .ParseError => -32700
  | .InvalidRequest => -32600
  | .MethodNotFound => -32601
  | .InvalidParams => -32602
  | .InternalError => -32603
  | .ServerErrorStart => -32099
  | .ServerErrorEnd => -32000
  | .ServerNotInitialized => -32002
  | .UnknownErrorCode => -32001
  | .RequestCancelled => -32800

/-! ## Messages and their typed parameters -/

/-- A message id: numeric or string. -/
inductive MessageId where
  | num (n : Int)
  | str (s : String)
deriving DecidableEq, Repr

/-- The three variants of a parsed envelope: a request and a response carry an id, a
notification carries none. -/
inductive Envelope where
  | request (id : MessageId)
  | notification
  | response (id : MessageId)
deriving DecidableEq, Repr

/-- The view of an `LSPMessage` that the dispatcher reads: `id()`, `method()`, `params()`,
`isRequest()`, `asRequest().id` and the flag `canceled`. -/
structure LSPMessage (Json : Type) where
  envelope : Envelope
  method : String
  params : Option Json
  canceled : Bool := false

namespace LSPMessage

variable {Json : Type}

/-- The accessor `msg.id()`: the id of a request or response, nothing for a notification. -/
def id (msg : LSPMessage Json) : Option MessageId :=
  match msg.envelope with
  | .request i => some i
  | .notification => none
  | .response i => some i

/-- The test `msg.isRequest()`. -/
def isRequest (msg : LSPMessage Json) : Bool :=
  match msg.envelope with
  | .request _ => true
  | _ => false

end LSPMessage

/-- An LSP position: 0-based line and character, both `int`. -/
structure Position where
  line : Int
  character : Int
deriving DecidableEq, Repr

/-- An LSP range. -/
structure Range where
  start : Position
  end_ : Position
deriving DecidableEq, Repr

/-- The internal position `core::Loc::Detail`: 1-based line and column, both unsigned
32-bit. -/
structure Detail where
  line : Nat
  column : Nat
deriving DecidableEq, Repr

structure TextDocumentContentChangeEvent where
  range : Option Range
  text : String
deriving DecidableEq, Repr

structure TextDocumentIdentifier where
  uri : String
deriving DecidableEq, Repr

structure TextDocumentItem where
  uri : String
  text : String
deriving DecidableEq, Repr

structure DidChangeTextDocumentParams where
  textDocument : TextDocumentIdentifier
  contentChanges : List TextDocumentContentChangeEvent
deriving DecidableEq, Repr

structure DidOpenTextDocumentParams where
  textDocument : TextDocumentItem
deriving DecidableEq, Repr

structure DidCloseTextDocumentParams where
  textDocument : TextDocumentIdentifier
deriving DecidableEq, Repr

structure WatchmanQueryResponse where
  files : List String
deriving DecidableEq, Repr

structure CompletionItemCapabilities where
  snippetSupport : Option Bool
deriving DecidableEq, Repr

structure CompletionCapabilities where
  completionItem : Option CompletionItemCapabilities
deriving DecidableEq, Repr

structure TextDocumentClientCapabilities where
  completion : Option CompletionCapabilities
deriving DecidableEq, Repr

structure ClientCapabilities where
  textDocument : Option TextDocumentClientCapabilities
deriving DecidableEq, Repr

/-- The parameters of the request whose method is `LSPMethod.Initialize`; `rootUri` is a
string or null. -/
structure InitializeParams (Json : Type) where
  rootUri : Option String
  capabilities : ClientCapabilities
  initializationOptions : Option Json

structure SorbetInitializationOptions where
  supportsOperationNotifications : Option Bool
deriving DecidableEq, Repr

inductive TextDocumentSyncKind where
  | None
  | Full
  | Incremental
deriving DecidableEq, Repr

structure SignatureHelpOptions where
  triggerCharacters : List String
deriving DecidableEq, Repr

structure CompletionOptions where
  triggerCharacters : List String
deriving DecidableEq, Repr

/-- The server capabilities; every member is optional and starts out absent. -/
structure ServerCapabilities where
  textDocumentSync : Option TextDocumentSyncKind := none
  definitionProvider : Option Bool := none
  documentSymbolProvider : Option Bool := none
  workspaceSymbolProvider : Option Bool := none
  hoverProvider : Option Bool := none
  referencesProvider : Option Bool := none
  signatureHelpProvider : Option SignatureHelpOptions := none
  completionProvider : Option CompletionOptions := none
deriving DecidableEq, Repr

structure InitializeResult where
  capabilities : ServerCapabilities
deriving DecidableEq, Repr

/-! ## Files, typecheck runs, options -/

/-- What the dispatcher reads of a `core::File`: its path and its source. Every file it
builds has type `Normal`. -/
structure File where
  path : String
  source : String
deriving DecidableEq, Repr

/-- The structure `TypecheckRun` of lsp.h: the global state after typechecking, and the
errors, the files typechecked and the query responses gathered in `results`. -/
structure TypecheckRun (GS P : Type) where
  results : P
  gs : GS

/-- The members of `options::Options` that the dispatcher reads. -/
structure Options where
  absoluteIgnorePatterns : List String
  relativeIgnorePatterns : List String
  lspGoToDefinitionEnabled : Bool
  lspDocumentSymbolEnabled : Bool
  lspWorkspaceSymbolsEnabled : Bool
  lspHoverEnabled : Bool
  lspFindReferencesEnabled : Bool
  lspSignatureHelpEnabled : Bool
  lspAutocompleteEnabled : Bool
deriving DecidableEq, Repr

/-- An `UnorderedSet<std::string>`: the elements without repetition. The order of `elems`
is the iteration order. -/
structure UnorderedSet where
  elems : List String
  nodup : elems.Nodup

namespace UnorderedSet

def empty : UnorderedSet := ⟨[], List.nodup_nil⟩

def contains (s : UnorderedSet) (x : String) : Bool := decide (x ∈ s.elems)

def insert (s : UnorderedSet) (x : String) : UnorderedSet :=
  ⟨s.elems.insert x, s.nodup.insert⟩

/-- The pair `find` and `erase` of the handler of didClose: the element is removed when it
is present. -/
def erase (s : UnorderedSet) (x : String) : UnorderedSet :=
  ⟨s.elems.erase x, s.nodup.erase x⟩

def clear (_s : UnorderedSet) : UnorderedSet := empty

end UnorderedSet

/-! ## The loop object, the trace of calls, and the collaborators -/

/-- The exceptions that can leave the dispatcher. -/
inductive Exn where
  | deserialization (what : String)
  | outOfRange
deriving DecidableEq, Repr

/-- The query handlers that a request is dispatched to. -/
inductive QueryHandler where
  | handleTextDocumentDocumentSymbol
  | handleWorkspaceSymbols
  | handleTextDocumentDefinition
  | handleTextDocumentHover
  | handleTextDocumentCompletion
  | handleTextSignatureHelp
  | handleTextDocumentReferences
deriving DecidableEq, Repr

/-- A call to a member function of `LSPLoop` whose body lies outside
`request_dispatch.cc`, with the arguments of the call. -/
inductive Event (GS Json P Q : Type) where
  | handleReplies (msg : LSPMessage Json)
  | ensureInitialized (forMethod : LSPMethod) (msg : LSPMessage Json) (currentGs : GS)
  | sendError (id : MessageId) (errorCode : Int) (errorMsg : String)
  | sendResponse (id : MessageId) (result : InitializeResult)
  | sendNullResponse (id : MessageId)
  | reIndexFromFileSystem
  | runSlowPath (changedFiles : List File)
  | tryFastPath (gs : GS) (changedFiles : List File)
  | pushDiagnostics (run : TypecheckRun GS P)
  | computeStateHashes (files : List File)
  | handleWatchmanUpdates (gs : GS) (changedFiles : List String)
  | query (handler : QueryHandler) (gs : GS) (id : MessageId) (params : Q)

namespace Event

variable {GS Json P Q : Type}

/-- The two checks that open `processRequestInternal`. -/
def isPrecheck : Event GS Json P Q → Bool
  | .handleReplies _ => true
  | .ensureInitialized _ _ _ => true
  | _ => false

/-- The calls that write a reply to the client. -/
def isSend : Event GS Json P Q → Bool
  | .sendError _ _ _ => true
  | .sendResponse _ _ => true
  | .sendNullResponse _ => true
  | _ => false

/-- The calls into the typecheck engine. -/
def isTypecheck : Event GS Json P Q → Bool
  | .reIndexFromFileSystem => true
  | .runSlowPath _ => true
  | .tryFastPath _ _ => true
  | .pushDiagnostics _ => true
  | .computeStateHashes _ => true
  | .handleWatchmanUpdates _ _ => true
  | _ => false

def isHandleWatchmanUpdates : Event GS Json P Q → Bool
  | .handleWatchmanUpdates _ _ => true
  | _ => false

def isQuery : Event GS Json P Q → Bool
  | .query _ _ _ _ => true
  | _ => false

end Event

/-- The members of the class `LSPLoop` (lsp.h) that the dispatcher reads or assigns,
and the trace of the calls it has made. A member holds what the dispatcher last
assigned to it; what the engine itself keeps up to date behind a call (the
hashes, the initial global state, the files with errors) belongs to that call,
which the trace records. -/
structure LSPLoop (GS Json P Q : Type) where
  rootUri : String
  rootPath : String
  opts : Options
  clientCompletionItemSnippetSupport : Bool := false
  disableFastPath : Bool
  openFiles : UnorderedSet
  deferredWatchmanUpdates : UnorderedSet
  initialized : Bool := false
  enableOperationNotifications : Bool := false
  globalStateHashes : List Nat
  trace : List (Event GS Json P Q)

/-- Appends a call to the trace. -/
def LSPLoop.record {GS Json P Q : Type} (st : LSPLoop GS Json P Q) (e : Event GS Json P Q) :
    LSPLoop GS Json P Q :=
  { st with trace := st.trace ++ [e] }

/-- The functions the dispatcher calls and whose bodies are not in
`request_dispatch.cc` or `lsp.h`. A function that reads members of the loop, or
state the loop owns (the initial global state, the registry of awaited replies),
takes the `LSPLoop` value at the time of the call. -/
structure Env (GS Json P Q : Type) where
  /-- `LSPMethod::getByName` -/
  getByName : String → LSPMethod
  /-- `LSPLoop::handleReplies` -/
  handleReplies : LSPLoop GS Json P Q → LSPMessage Json → Bool
  /-- `LSPLoop::ensureInitialized` -/
  ensureInitialized : LSPLoop GS Json P Q → LSPMethod → LSPMessage Json → GS → Bool
  /-- `DidChangeTextDocumentParams::fromJSONValue`, applied to `msg.params()` -/
  parseDidChange : Option Json → Except String DidChangeTextDocumentParams
  /-- `DidOpenTextDocumentParams::fromJSONValue`, applied to `msg.params()` -/
  parseDidOpen : Option Json → Except String DidOpenTextDocumentParams
  /-- `DidCloseTextDocumentParams::fromJSONValue`, applied to `msg.params()` -/
  parseDidClose : Option Json → Except String DidCloseTextDocumentParams
  /-- `WatchmanQueryResponse::fromJSONValue`, applied to `msg.params()` -/
  parseWatchman : Option Json → Except String WatchmanQueryResponse
  /-- `InitializeParams::fromJSONValue` -/
  parseInitializeParams : Json → Except String (InitializeParams Json)
  /-- `rapidjson::Value::IsObject` -/
  isObject : Json → Bool
  /-- `SorbetInitializationOptions::fromJSONValue` -/
  parseSorbetInitializationOptions : Json → Except String SorbetInitializationOptions
  /-- The `fromJSONValue` of the parameter type of each query handler -/
  parseQuery : QueryHandler → Json → Except String Q
  /-- `LSPLoop::remoteName2Local`, which reads `rootUri` and `rootPath` -/
  remoteName2Local : (rootUri rootPath uri : String) → String
  /-- `FileOps::isFileIgnored` -/
  isFileIgnored : (rootPath localPath : String) → (absoluteIgnorePatterns
    relativeIgnorePatterns : List String) → Bool
  /-- `initialGS->findFileByPath` followed by `exists()` and `data(*initialGS)` -/
  findFileByPath : LSPLoop GS Json P Q → String → Option File
  /-- `core::Loc::pos2Offset` -/
  pos2Offset : File → Detail → Nat
  /-- `LSPLoop::runSlowPath` -/
  runSlowPath : LSPLoop GS Json P Q → List File → TypecheckRun GS P
  /-- `LSPLoop::tryFastPath` -/
  tryFastPath : LSPLoop GS Json P Q → GS → List File → TypecheckRun GS P
  /-- `LSPLoop::pushDiagnostics` -/
  pushDiagnostics : LSPLoop GS Json P Q → TypecheckRun GS P → GS
  /-- `core::GlobalState::getFiles` -/
  getFiles : GS → List File
  /-- `LSPLoop::computeStateHashes` -/
  computeStateHashes : List File → List Nat
  /-- `LSPLoop::handleWatchmanUpdates` -/
  handleWatchmanUpdates : LSPLoop GS Json P Q → GS → List String → GS
  /-- The seven query handlers -/
  handleQuery : QueryHandler → LSPLoop GS Json P Q → GS → MessageId → Q → GS

/-- What a call of the dispatcher leaves behind: the loop object, and either the global
state it returns or the exception it throws. -/
abbrev Result (GS Json P Q : Type) := LSPLoop GS Json P Q × Except Exn GS

/-! ## The handler of didChange: applying content changes -/

section Dispatch

variable {GS Json P Q : Type}

/-- The test `absl::StartsWith(text, pre)`. -/
def startsWith (text pre : String) : Bool := pre.data.isPrefixOf text.data

/-- The call `absl::StrCat(rootPath, "/", relPath)`. -/
def strCat3 (a b c : String) : String := a ++ b ++ c

/-- The number of values of an unsigned 32-bit integer. -/
def u4Size : Nat := 4294967296

/-- The conversion of an `int` to an unsigned 32-bit integer. -/
def toU4 (x : Int) : Nat := (x % (u4Size : Int)).toNat

/-- The difference of two unsigned 32-bit integers. -/
def u4Sub (a b : Nat) : Nat := (a + u4Size - b) % u4Size

/-- The call `s.replace(pos, len, str)` of `std::string`: it throws `std::out_of_range`
(here `none`) when `pos` exceeds the size, and otherwise replaces the
`min(len, size - pos)` characters that start at `pos`. -/
def stringReplace (s : String) (pos len : Nat) (str : String) : Option String :=
  if s.length < pos then none
  else some ⟨s.data.take pos ++ str.data ++ s.data.drop (pos + min len (s.length - pos))⟩

/-- The translation of an LSP position into a `core::Loc::Detail` in the loop over the
content changes: `start.line = range->start->line + 1`,
`start.column = range->start->character + 1`, and the same for `end`. -/
def positionToDetail (p : Position) : Detail :=
  { line := toU4 (p.line + 1), column := toU4 (p.character + 1) }

/-- One iteration of the loop over `edits->contentChanges`. -/
def applyContentChange (env : Env GS Json P Q) (file : File)
    (change : TextDocumentContentChangeEvent) : Except Exn File :=
  match change.range with
  | some range =>
    -- incremental update
    let old := file
    let oldContent := old.source
    let start := positionToDetail range.start
    let end_ := positionToDetail range.end_
    let startOffset := env.pos2Offset old start % u4Size
    let endOffset := env.pos2Offset old end_ % u4Size
    match stringReplace oldContent startOffset (u4Sub endOffset startOffset) change.text with
    | none => .error .outOfRange
    | some newContent => .ok { path := old.path, source := newContent }
  | none =>
    -- replace
    let old := file
    .ok { path := old.path, source := change.text }

/-- The loop `for (auto &change : edits->contentChanges)`. -/
def applyContentChanges (env : Env GS Json P Q) (file : File)
    (changes : List TextDocumentContentChangeEvent) : Except Exn File :=
  match changes with
  | [] => .ok file
  | change :: rest =>
    match applyContentChange env file change with
    | .error e => .error e
    | .ok file1 => applyContentChanges env file1 rest

/-! ## The notification handlers

Each handler is one `if (method == ...)` block of the notification branch. It yields
`none` when control leaves the block without returning, and the next block is tried. -/

/-- The block of `LSPMethod::TextDocumentDidChange()`. -/
def didChange (env : Env GS Json P Q) (st : LSPLoop GS Json P Q) (gs : GS)
    (msg : LSPMessage Json) (method : LSPMethod) : Option (Result GS Json P Q) :=
  if method.eq LSPMethod.TextDocumentDidChange then
    match env.parseDidChange msg.params with
    | .error what => some (st, .error (.deserialization what))
    | .ok edits =>
      let uri := edits.textDocument.uri
      if startsWith uri st.rootUri then
        let localPath := env.remoteName2Local st.rootUri st.rootPath uri
        if env.isFileIgnored st.rootPath localPath st.opts.absoluteIgnorePatterns
            st.opts.relativeIgnorePatterns then
          some (st, .ok gs)
        else
          let file : File :=
            match env.findFileByPath st localPath with
            | some current => { path := current.path, source := current.source }
            | none => { path := localPath, source := "" }
          match applyContentChanges env file edits.contentChanges with
          | .error e => some (st, .error e)
          | .ok file1 =>
            let files := [file1]
            let run := env.tryFastPath st gs files
            let st1 := st.record (.tryFastPath gs files)
            some (st1.record (.pushDiagnostics run), .ok (env.pushDiagnostics st1 run))
      else none
  else none

/-- The block of `LSPMethod::TextDocumentDidOpen()`. -/
def didOpen (env : Env GS Json P Q) (st : LSPLoop GS Json P Q) (gs : GS)
    (msg : LSPMessage Json) (method : LSPMethod) : Option (Result GS Json P Q) :=
  if method.eq LSPMethod.TextDocumentDidOpen then
    match env.parseDidOpen msg.params with
    | .error what => some (st, .error (.deserialization what))
    | .ok edits =>
      let uri := edits.textDocument.uri
      if startsWith uri st.rootUri then
        let localPath := env.remoteName2Local st.rootUri st.rootPath uri
        if env.isFileIgnored st.rootPath localPath st.opts.absoluteIgnorePatterns
            st.opts.relativeIgnorePatterns then
          some (st, .ok gs)
        else
          let files : List File := [{ path := localPath, source := edits.textDocument.text }]
          let st1 := { st with openFiles := st.openFiles.insert localPath }
          let run := env.tryFastPath st1 gs files
          let st2 := st1.record (.tryFastPath gs files)
          some (st2.record (.pushDiagnostics run), .ok (env.pushDiagnostics st2 run))
      else none
  else none

/-- The block of `LSPMethod::TextDocumentDidClose()`. -/
def didClose (env : Env GS Json P Q) (st : LSPLoop GS Json P Q) (gs : GS)
    (msg : LSPMessage Json) (method : LSPMethod) : Option (Result GS Json P Q) :=
  if method.eq LSPMethod.TextDocumentDidClose then
    match env.parseDidClose msg.params with
    | .error what => some (st, .error (.deserialization what))
    | .ok edits =>
      let uri := edits.textDocument.uri
      if startsWith uri st.rootUri then
        let localPath := env.remoteName2Local st.rootUri st.rootPath uri
        if env.isFileIgnored st.rootPath localPath st.opts.absoluteIgnorePatterns
            st.opts.relativeIgnorePatterns then
          some (st, .ok gs)
        else
          let st1 :=
            if st.openFiles.contains localPath then
              { st with openFiles := st.openFiles.erase localPath }
            else st
          -- Treat as if Watchman told us the file updated.
          some (st1.record (.handleWatchmanUpdates gs [localPath]),
            .ok (env.handleWatchmanUpdates st1 gs [localPath]))
      else none
  else none

/-- The block of `LSPMethod::SorbetWatchmanFileChange()`. -/
def watchmanFileChange (env : Env GS Json P Q) (st : LSPLoop GS Json P Q) (gs : GS)
    (msg : LSPMessage Json) (method : LSPMethod) : Option (Result GS Json P Q) :=
  if method.eq LSPMethod.SorbetWatchmanFileChange then
    match env.parseWatchman msg.params with
    | .error what => some (st, .error (.deserialization what))
    | .ok queryResponse =>
      let absoluteFilePaths :=
        queryResponse.files.map (fun relPath => strCat3 st.rootPath "/" relPath)
      if !st.initialized then
        some ({ st with deferredWatchmanUpdates :=
                  absoluteFilePaths.foldl UnorderedSet.insert st.deferredWatchmanUpdates },
              .ok gs)
      else
        some (st.record (.handleWatchmanUpdates gs absoluteFilePaths),
          .ok (env.handleWatchmanUpdates st gs absoluteFilePaths))
  else none

/-- The block of `LSPMethod::Initialized()`. -/
def initializedNotification (env : Env GS Json P Q) (st : LSPLoop GS Json P Q) (_gs : GS)
    (_msg : LSPMessage Json) (method : LSPMethod) : Option (Result GS Json P Q) :=
  if method.eq LSPMethod.Initialized then
    -- initialize ourselves
    let st1 := st.record .reIndexFromFileSystem
    let changedFiles : List File := []
    let run := env.runSlowPath st1 changedFiles
    let st2 := st1.record (.runSlowPath changedFiles)
    let newGs := env.pushDiagnostics st2 run
    let st3 := st2.record (.pushDiagnostics run)
    let st4 :=
      if !st3.disableFastPath then
        { st3.record (.computeStateHashes (env.getFiles newGs)) with
            globalStateHashes := env.computeStateHashes (env.getFiles newGs) }
      else st3
    let st5 := { st4 with initialized := true }
    -- process deferred watchman updates
    let deferredUpdatesVector := st5.deferredWatchmanUpdates.elems
    let st6 := { st5 with deferredWatchmanUpdates := st5.deferredWatchmanUpdates.clear }
    some (st6.record (.handleWatchmanUpdates newGs deferredUpdatesVector),
      .ok (env.handleWatchmanUpdates st6 newGs deferredUpdatesVector))
  else none

/-- The block of `LSPMethod::Exit()`. -/
def exitNotification (st : LSPLoop GS Json P Q) (gs : GS) (method : LSPMethod) :
    Option (Result GS Json P Q) :=
  if method.eq LSPMethod.Exit then some (st, .ok gs) else none

/-- The branch `if (method.isNotification)`: the blocks in the order of the source, and
the final `return gs` when none of them returns. -/
def processNotification (env : Env GS Json P Q) (st : LSPLoop GS Json P Q) (gs : GS)
    (msg : LSPMessage Json) (method : LSPMethod) : Result GS Json P Q :=
  match didChange env st gs msg method with
  | some r => r
  | none =>
  match didOpen env st gs msg method with
  | some r => r
  | none =>
  match didClose env st gs msg method with
  | some r => r
  | none =>
  match watchmanFileChange env st gs msg method with
  | some r => r
  | none =>
  match initializedNotification env st gs msg method with
  | some r => r
  | none =>
  match exitNotification st gs method with
  | some r => r
  | none => (st, .ok gs)

/-! ## The request branch -/

/-- The value assigned to `clientCompletionItemSnippetSupport` by the handler of
the request `LSPMethod.Initialize`: `false`, unless the capabilities hold
`textDocument`, `completion` and `completionItem`, in which case it is
`snippetSupport.value_or(false)`. -/
def snippetSupportOf (capabilities : ClientCapabilities) : Bool :=
  match capabilities.textDocument with
  | some textDocument =>
    match textDocument.completion with
    | some completion =>
      match completion.completionItem with
      | some completionItem => completionItem.snippetSupport.getD false
      | none => false
    | none => false
  | none => false

/-- The `ServerCapabilities` object that the handler of `LSPMethod.Initialize` builds
from the options. -/
def serverCapabilities (opts : Options) : ServerCapabilities :=
  let serverCap : ServerCapabilities := {}
  let serverCap := { serverCap with textDocumentSync := some TextDocumentSyncKind.Full }
  let serverCap := { serverCap with definitionProvider := some opts.lspGoToDefinitionEnabled }
  let serverCap := { serverCap with documentSymbolProvider := some opts.lspDocumentSymbolEnabled }
  let serverCap := { serverCap with workspaceSymbolProvider := some opts.lspWorkspaceSymbolsEnabled }
  let serverCap := { serverCap with hoverProvider := some opts.lspHoverEnabled }
  let serverCap := { serverCap with referencesProvider := some opts.lspFindReferencesEnabled }
  let serverCap :=
    if opts.lspSignatureHelpEnabled then
      { serverCap with signatureHelpProvider := some { triggerCharacters := ["(", ","] } }
    else serverCap
  let serverCap :=
    if opts.lspAutocompleteEnabled then
      { serverCap with completionProvider := some { triggerCharacters := ["."] } }
    else serverCap
  serverCap

/-- The block of `LSPMethod::Initialize()` in the request branch. -/
def handleInitialize (env : Env GS Json P Q) (st : LSPLoop GS Json P Q) (gs : GS)
    (id : MessageId) (rawParams : Json) : Result GS Json P Q :=
  match env.parseInitializeParams rawParams with
  | .error what => (st, .error (.deserialization what))
  | .ok params =>
    let st1 :=
      match params.rootUri with
      | some rootUriString => { st with rootUri := rootUriString }
      | none => st
    let st2 := { st1 with clientCompletionItemSnippetSupport := snippetSupportOf params.capabilities }
    let st3 : Except String (LSPLoop GS Json P Q) :=
      match params.initializationOptions with
      | some initOptions =>
        if env.isObject initOptions then
          match env.parseSorbetInitializationOptions initOptions with
          | .error what => .error what
          | .ok sorbetInitOptions =>
            .ok { st2 with enableOperationNotifications :=
                    sorbetInitOptions.supportsOperationNotifications.getD false }
        else .ok st2
      | none => .ok st2
    match st3 with
    | .error what => (st2, .error (.deserialization what))
    | .ok st4 =>
      (st4.record (.sendResponse id { capabilities := serverCapabilities st4.opts }), .ok gs)

/-- The dispatch of a request to a query handler: the parameters are deserialized and
the handler is called. -/
def dispatchQuery (env : Env GS Json P Q) (st : LSPLoop GS Json P Q) (gs : GS)
    (id : MessageId) (rawParams : Json) (handler : QueryHandler) : Result GS Json P Q :=
  match env.parseQuery handler rawParams with
  | .error what => (st, .error (.deserialization what))
  | .ok params => (st.record (.query handler gs id params), .ok (env.handleQuery handler st gs id params))

/-- The branch `else if (msg.isRequest())`, for the request with id `id`. -/
def processRequestBranch (env : Env GS Json P Q) (st : LSPLoop GS Json P Q) (gs : GS)
    (msg : LSPMessage Json) (method : LSPMethod) (id : MessageId) : Result GS Json P Q :=
  if msg.canceled then
    (st.record (.sendError id LSPErrorCodes.RequestCancelled.toInt "Request was canceled"), .ok gs)
  else
    match msg.params with
    | none =>
      (st.record (.sendError id LSPErrorCodes.InternalError.toInt
          "Expected parameters, but found none."), .ok gs)
    | some rawParams =>
      if method.eq LSPMethod.Initialize then
        handleInitialize env st gs id rawParams
      else if method.eq LSPMethod.Shutdown then
        (st.record (.sendNullResponse id), .ok gs)
      else if method.eq LSPMethod.TextDocumentDocumentSymbol then
        dispatchQuery env st gs id rawParams .handleTextDocumentDocumentSymbol
      else if method.eq LSPMethod.WorkspaceSymbols then
        dispatchQuery env st gs id rawParams .handleWorkspaceSymbols
      else if method.eq LSPMethod.TextDocumentDefinition then
        dispatchQuery env st gs id rawParams .handleTextDocumentDefinition
      else if method.eq LSPMethod.TextDocumentHover then
        dispatchQuery env st gs id rawParams .handleTextDocumentHover
      else if method.eq LSPMethod.TextDocumentCompletion then
        dispatchQuery env st gs id rawParams .handleTextDocumentCompletion
      else if method.eq LSPMethod.TextDocumentSignatureHelp then
        dispatchQuery env st gs id rawParams .handleTextSignatureHelp
      else if method.eq LSPMethod.TextDocumentRefernces then
        dispatchQuery env st gs id rawParams .handleTextDocumentReferences
      else
        (st.record (.sendError id LSPErrorCodes.MethodNotFound.toInt
          ("Unknown method: " ++ method.name)), .ok gs)

/-! ## `processRequestInternal`, `processRequest` -/

/-- The function `LSPLoop::processRequestInternal`. -/
def processRequestInternal (env : Env GS Json P Q) (st : LSPLoop GS Json P Q) (gs : GS)
    (msg : LSPMessage Json) : Result GS Json P Q :=
  let st1 := st.record (.handleReplies msg)
  if env.handleReplies st msg then (st1, .ok gs)
  else
    let method := env.getByName msg.method
    let st2 := st1.record (.ensureInitialized method msg gs)
    if !env.ensureInitialized st1 method msg gs then (st2, .ok gs)
    else if method.isNotification then
      processNotification env st2 gs msg method
    else
      match msg.envelope with
      | .request id => processRequestBranch env st2 gs msg method id
      | _ => (st2, .ok gs)

/-- The function `LSPLoop::processRequest` on a parsed message. -/
def processRequest (env : Env GS Json P Q) (st : LSPLoop GS Json P Q) (gs : GS)
    (msg : LSPMessage Json) : Result GS Json P Q :=
  let id := msg.id
  match processRequestInternal env st gs msg with
  | (st1, .ok gs1) => (st1, .ok gs1)
  | (st1, .error (.deserialization what)) =>
    let st2 :=
      match id with
      | some i => st1.record (.sendError i LSPErrorCodes.InvalidParams.toInt what)
      | none => st1
    -- Run the slow path so that the caller still has a GlobalState.
    (st2.record (.runSlowPath []), .ok (env.runSlowPath st2 []).gs)
  | (st1, .error e) => (st1, .error e)

end Dispatch

/-- The names of the nine request methods that `processRequestInternal` dispatches. -/
def dispatchedRequestNames : List String :=
  ["initialize", "shutdown", "textDocument/documentSymbol", "workspace/symbol",
   "textDocument/definition", "textDocument/hover", "textDocument/completion",
   "textDocument/signatureHelp", "textDocument/references"]

/-! ## A concrete instance

A small, fully computable instance of the collaborators, on which the theorems
below are evaluated. Global states are numbers, and a JSON value is the typed
payload it deserializes to. -/

namespace Sample

/-- The JSON values of the instance. -/
inductive SJson where
  | didChangeParams (p : DidChangeTextDocumentParams)
  | didOpenParams (p : DidOpenTextDocumentParams)
  | didCloseParams (p : DidCloseTextDocumentParams)
  | watchmanResponse (p : WatchmanQueryResponse)
  | initializeParams (rootUri : Option String) (capabilities : ClientCapabilities)
      (supportsOperationNotifications : Option (Option Bool))
  | sorbetOptions (supportsOperationNotifications : Option Bool)
  | queryParams (n : Nat)
  | null
deriving DecidableEq, Repr

/-- Modelled from the spec: the table `LSPMethod::ALL_METHODS`, whose definition is not
among the sources, holds every method tag that lsp.h declares. -/
def ALL_METHODS : List LSPMethod :=
  [LSPMethod.CancelRequest, LSPMethod.Initialize, LSPMethod.Initialized, LSPMethod.Shutdown,
   LSPMethod.Exit, LSPMethod.RegisterCapability, LSPMethod.UnRegisterCapability,
   LSPMethod.DidChangeWatchedFiles, LSPMethod.PushDiagnostics, LSPMethod.TextDocumentDidOpen,
   LSPMethod.TextDocumentDidChange, LSPMethod.TextDocumentDidClose,
   LSPMethod.TextDocumentDocumentSymbol, LSPMethod.TextDocumentDefinition,
   LSPMethod.TextDocumentHover, LSPMethod.TextDocumentCompletion,
   LSPMethod.TextDocumentRefernces, LSPMethod.TextDocumentSignatureHelp,
   LSPMethod.WorkspaceSymbols, LSPMethod.WindowShowMessage, LSPMethod.Pause, LSPMethod.Resume,
   LSPMethod.SorbetWatchmanFileChange, LSPMethod.SorbetWatchmanExit,
   LSPMethod.SorbetShowOperation]

/-- Modelled from the spec: `LSPMethod::getByName`, whose body is not among the
sources, resolves a name to the method tag of that name; an unknown name gets
an unsupported client-initiated tag, which counts as a notification or not
according to `unknownIsNotification`. -/
def getByName (unknownIsNotification : Bool) (name : String) : LSPMethod :=
  match ALL_METHODS.find? (fun candidate => decide (candidate.name = name)) with
  | some candidate => candidate
  | none =>
    { name := name, isNotification := unknownIsNotification, kind := .ClientInitiated,
      isSupported := false }

/-- Modelled from the spec: local URIs have the prefix `rootUri` stripped and replaced
with `rootPath`. -/
def remoteName2Local (rootUri rootPath uri : String) : String :=
  rootPath ++ ⟨uri.data.drop rootUri.length⟩

/-- The offset of the first character of the 1-based line `line` in `cs`, which
starts at offset `acc`. -/
def lineStart : List Char → Nat → Nat → Nat
  | _, 0, acc => acc
  | _, 1, acc => acc
  | [], _, acc => acc
  | c :: cs, line + 2, acc =>
    if c = '\n' then lineStart cs (line + 1) (acc + 1) else lineStart cs (line + 2) (acc + 1)

/-- Modelled from the spec: `core::Loc::pos2Offset`, whose body is not among the
sources, maps a 1-based line and column to a byte offset into the file source:
the offset of the first character of the line plus the column less one. A
column past the end of the line is not clamped. -/
def pos2Offset (file : File) (pos : Detail) : Nat :=
  lineStart file.source.data pos.line 0 + (pos.column - 1)

/-- Modelled from the spec: the collaborators whose bodies are not among the sources.
`handleReplies` is true exactly for a response; `ensureInitialized` passes once
the loop is initialized, and before that only for the methods of the handshake
and for watchman notifications, which are deferred; `isFileIgnored` is true
for a local path that starts with an absolute ignore pattern. The rest is the
simplest instance: the initial global state knows no file, a global state is a
number, the slow path yields 0, the fast path and a watchman update add one. -/
def env (unknownIsNotification : Bool) : Env Nat SJson Unit Nat where
  getByName := getByName unknownIsNotification
  handleReplies := fun _ msg =>
    match msg.envelope with
    | .response _ => true
    | _ => false
  ensureInitialized := fun st forMethod _ _ =>
    st.initialized || forMethod.eq LSPMethod.Initialize || forMethod.eq LSPMethod.Initialized
      || forMethod.eq LSPMethod.Exit || forMethod.eq LSPMethod.Shutdown
      || forMethod.eq LSPMethod.SorbetWatchmanFileChange
  parseDidChange := fun j =>
    match j with
    | some (.didChangeParams p) => .ok p
    | _ => .error "root.params"
  parseDidOpen := fun j =>
    match j with
    | some (.didOpenParams p) => .ok p
    | _ => .error "root.params"
  parseDidClose := fun j =>
    match j with
    | some (.didCloseParams p) => .ok p
    | _ => .error "root.params"
  parseWatchman := fun j =>
    match j with
    | some (.watchmanResponse p) => .ok p
    | _ => .error "root.params"
  parseInitializeParams := fun j =>
    match j with
    | .initializeParams rootUri capabilities o =>
      .ok { rootUri := rootUri, capabilities := capabilities,
            initializationOptions := o.map SJson.sorbetOptions }
    | _ => .error "root.params"
  isObject := fun j =>
    match j with
    | .null => false
    | _ => true
  parseSorbetInitializationOptions := fun j =>
    match j with
    | .sorbetOptions o => .ok { supportsOperationNotifications := o }
    | _ => .error "params.initializationOptions"
  parseQuery := fun _ j =>
    match j with
    | .queryParams n => .ok n
    | _ => .error "root"
  remoteName2Local := remoteName2Local
  isFileIgnored := fun _ localPath absoluteIgnorePatterns _ =>
    absoluteIgnorePatterns.any (fun pattern => startsWith localPath pattern)
  findFileByPath := fun _ _ => none
  pos2Offset := pos2Offset
  runSlowPath := fun _ _ => { results := (), gs := 0 }
  tryFastPath := fun _ gs _ => { results := (), gs := gs + 1 }
  pushDiagnostics := fun _ run => run.gs
  getFiles := fun _ => []
  computeStateHashes := fun files => files.map (fun file => file.source.length)
  handleWatchmanUpdates := fun _ gs _ => gs + 1
  handleQuery := fun _ _ gs _ _ => gs

/-- The options of the instance: everything under `/w/vendor` is ignored, every feature
is enabled. -/
def opts : Options where
  absoluteIgnorePatterns := ["/w/vendor"]
  relativeIgnorePatterns := []
  lspGoToDefinitionEnabled := true
  lspDocumentSymbolEnabled := true
  lspWorkspaceSymbolsEnabled := true
  lspHoverEnabled := true
  lspFindReferencesEnabled := true
  lspSignatureHelpEnabled := true
  lspAutocompleteEnabled := true

/-- A loop object for the workspace `file:///w`, stored at `/w`, with no open file, no
deferred update and an empty trace. -/
def loop ( initialized : Bool) : LSPLoop Nat SJson Unit Nat where
  rootUri := "file:///w"
  rootPath := "/w"
  opts := opts
  disableFastPath := false
  openFiles := UnorderedSet.empty
  deferredWatchmanUpdates := UnorderedSet.empty
  initialized := initialized
  globalStateHashes := []
  trace := []

/-- A cancelled request with id 7 whose method is the tag `LSPMethod.Exit`. -/
def cancelledExit : LSPMessage SJson :=
  { envelope := .request (.num 7), method := "exit", params := none, canceled := true }

/-- A cancelled `textDocument/references` request with id 7, without parameters. -/
def cancelledReferences : LSPMessage SJson :=
  { envelope := .request (.num 7), method := "textDocument/references", params := none,
    canceled := true }

/-- A request with id 7 for the method `foo/bar`, which lsp.h does not declare, without
parameters. -/
def unknownWithoutParams : LSPMessage SJson :=
  { envelope := .request (.num 7), method := "foo/bar", params := none }

/-- A request with id 7 for the method `foo/bar`, with parameters. -/
def unknownWithParams : LSPMessage SJson :=
  { envelope := .request (.num 7), method := "foo/bar", params := some .null }

/-- A `textDocument/hover` request with id 3 whose parameters do not deserialize. -/
def malformedHover : LSPMessage SJson :=
  { envelope := .request (.num 3), method := "textDocument/hover", params := some .null }

/-- A `textDocument/didChange` notification whose parameters do not deserialize. -/
def malformedDidChange : LSPMessage SJson :=
  { envelope := .notification, method := "textDocument/didChange", params := some .null }

/-- A didChange notification for `file:///elsewhere/x.rb`, outside the workspace. -/
def didChangeElsewhere : LSPMessage SJson :=
  { envelope := .notification, method := "textDocument/didChange",
    params := some (.didChangeParams
      { textDocument := { uri := "file:///elsewhere/x.rb" },
        contentChanges := [{ range := none, text := "x = 1" }] }) }

/-- A didOpen notification for `file:///w/vendor/a.rb`, which the options ignore. -/
def didOpenVendor : LSPMessage SJson :=
  { envelope := .notification, method := "textDocument/didOpen",
    params := some (.didOpenParams
      { textDocument := { uri := "file:///w/vendor/a.rb", text := "x = 1" } }) }

end Sample

/-- Modelled from the spec: the conversion of an internal position back to an LSP
position, which lsp.h declares (`loc2Range`) and does not define, is
`lsp_line = internal_line - 1`, `lsp_character = internal_column - 1`. -/
def detailToPosition (d : Detail) : Position :=
  { line := (d.line : Int) - 1, character := (d.column : Int) - 1 }

namespace Sample

/-- The file `/w/a.rb` with the two lines `x = 1` and `foo`. -/
def fileA : File := { path := "/w/a.rb", source := "x = 1\nfoo" }

/-- The change that replaces the characters 4 to 5 of the first line by `42`. -/
def changeDigit : TextDocumentContentChangeEvent :=
  { range := some { start := { line := 0, character := 4 }, end_ := { line := 0, character := 5 } },
    text := "42" }

end Sample

/-- Dispatching the messages of a list one after the other with
`processRequestInternal`, each on the loop object and the global state that the
one before it left; an exception ends the run. -/
def dispatchAll (env : Env GS Json P Q) (st : LSPLoop GS Json P Q) (gs : GS) :
    List (LSPMessage Json) → Result GS Json P Q
  | [] => (st, .ok gs)
  | msg :: rest =>
    match processRequestInternal env st gs msg with
    | (st1, .ok gs1) => dispatchAll env st1 gs1 rest
    | (st1, .error e) => (st1, .error e)

namespace Sample

/-- The didOpen notification for `file:///w/a.rb` with the text `x = 1`. -/
def didOpenA : LSPMessage SJson :=
  { envelope := .notification, method := "textDocument/didOpen",
    params := some (.didOpenParams { textDocument := { uri := "file:///w/a.rb", text := "x = 1" } }) }

/-- The didClose notification for `file:///w/a.rb`. -/
def didCloseA : LSPMessage SJson :=
  { envelope := .notification, method := "textDocument/didClose",
    params := some (.didCloseParams { textDocument := { uri := "file:///w/a.rb" } }) }

end Sample

namespace Sample

/-- A watchman notification that lists `a.rb` and `b.rb`. -/
def watchmanAB : LSPMessage SJson :=
  { envelope := .notification, method := "sorbet/watchmanFileChange",
    params := some (.watchmanResponse { files := ["a.rb", "b.rb"] }) }

/-- A watchman notification that lists `b.rb` and `c.rb`. -/
def watchmanBC : LSPMessage SJson :=
  { envelope := .notification, method := "sorbet/watchmanFileChange",
    params := some (.watchmanResponse { files := ["b.rb", "c.rb"] }) }

/-- The notification `initialized`. -/
def initializedMessage : LSPMessage SJson :=
  { envelope := .notification, method := "initialized", params := none }

end Sample

namespace Sample

/-- An initialize request with id 1 that carries no client capability and
`initializationOptions.supportsOperationNotifications = true`. -/
def initializeWithNotifications : LSPMessage SJson :=
  { envelope := .request (.num 1), method := "initialize",
    params := some (.initializeParams (some "file:///w") { textDocument := none }
      (some (some true))) }

/-- Client capabilities that announce snippet support in completion items. -/
def snippetCapabilities : ClientCapabilities :=
  { textDocument :=
      some { completion := some { completionItem := some { snippetSupport := some true } } } }

/-- An initialize request with id 2 that announces snippet support and carries no
`initializationOptions`. -/
def initializeWithSnippets : LSPMessage SJson :=
  { envelope := .request (.num 2), method := "initialize",
    params := some (.initializeParams (some "file:///w") snippetCapabilities none) }

/-- A shutdown request with id 7 without parameters, as the protocol sends it. -/
def shutdownWithoutParams : LSPMessage SJson :=
  { envelope := .request (.num 7), method := "shutdown", params := none }

/-- A shutdown request with id 7 whose parameters are the JSON null. -/
def shutdownWithParams : LSPMessage SJson :=
  { envelope := .request (.num 7), method := "shutdown", params := some .null }

/-- A well-formed `textDocument/hover` request with id 8. -/
def hoverRequest : LSPMessage SJson :=
  { envelope := .request (.num 8), method := "textDocument/hover",
    params := some (.queryParams 0) }

end Sample

/-- The request methods that the request branch hands to a query handler, each with its
handler, in the order of the source. -/
def queryTags : List (LSPMethod × QueryHandler) :=
  [(LSPMethod.TextDocumentDocumentSymbol, .handleTextDocumentDocumentSymbol),
   (LSPMethod.WorkspaceSymbols, .handleWorkspaceSymbols),
   (LSPMethod.TextDocumentDefinition, .handleTextDocumentDefinition),
   (LSPMethod.TextDocumentHover, .handleTextDocumentHover),
   (LSPMethod.TextDocumentCompletion, .handleTextDocumentCompletion),
   (LSPMethod.TextDocumentSignatureHelp, .handleTextSignatureHelp),
   (LSPMethod.TextDocumentRefernces, .handleTextDocumentReferences)]

/-- The calls of `sendError` with the code `InvalidRequest`. -/
def Event.isInvalidRequestError {GS Json P Q : Type} : Event GS Json P Q → Bool
  | .sendError _ errorCode _ => decide (errorCode = LSPErrorCodes.InvalidRequest.toInt)
  | _ => false

/-- The calls of `handleReplies`, the first call of every run of
`processRequestInternal`. -/
def Event.isHandleReplies {GS Json P Q : Type} : Event GS Json P Q → Bool
  | .handleReplies _ => true
  | _ => false

namespace Sample

/-- A didChange notification for `file:///w/a.rb`, a file the initial state does not
know, whose one change replaces the empty range at line 0, character 10. -/
def didChangeOutOfRange : LSPMessage SJson :=
  { envelope := .notification, method := "textDocument/didChange",
    params := some (.didChangeParams
      { textDocument := { uri := "file:///w/a.rb" },
        contentChanges :=
          [{ range := some { start := { line := 0, character := 10 },
                             end_ := { line := 0, character := 10 } },
             text := "x" }] }) }

/-- A didChange notification for `file:///w/a.rb` with a full replacement by `x = 1`
followed by the change of the characters 4 to 5 of line 0 into `42`. -/
def didChangeA : LSPMessage SJson :=
  { envelope := .notification, method := "textDocument/didChange",
    params := some (.didChangeParams
      { textDocument := { uri := "file:///w/a.rb" },
        contentChanges := [{ range := none, text := "x = 1" }, changeDigit] }) }

end Sample

/-! ## `processRequests` -/

/-- The structure `LSPLoop::QueueState` of lsp.h. The counters collected from the
worker threads are metrics and are left out. -/
structure QueueState (Json : Type) where
  pendingRequests : List (LSPMessage Json)
  terminate : Bool
  paused : Bool
  requestCounter : Int
  errorCode : Int

/-- The queue state `LSPLoop::QueueState state{{}, false, false, 0}` that
`processRequests` starts from; the member `errorCode`, which has no
initializer, is value-initialized. -/
def QueueState.fresh {Json : Type} : QueueState Json :=
  { pendingRequests := [], terminate := false, paused := false, requestCounter := 0,
    errorCode := 0 }

/-- The loop `for (auto &message : state.pendingRequests)` of `processRequests`, which
assigns `gs = processRequest(move(gs), *message)`; an exception that leaves
`processRequest` leaves the loop. -/
def processPending {GS Json P Q : Type} (env : Env GS Json P Q) (st : LSPLoop GS Json P Q)
    (gs : GS) : List (LSPMessage Json) → Result GS Json P Q
  | [] => (st, .ok gs)
  | message :: rest =>
    match processRequest env st gs message with
    | (st1, .ok gs1) => processPending env st1 gs1 rest
    | (st1, .error e) => (st1, .error e)

/-- The function `LSPLoop::processRequests`. The static function `enqueueRequest`, whose
body is not among the sources, is a parameter; it reads and assigns the queue
state only. -/
def processRequests {GS Json P Q : Type} (env : Env GS Json P Q)
    (enqueueRequest : QueueState Json → LSPMessage Json → QueueState Json)
    (st : LSPLoop GS Json P Q) (gs : GS) (messages : List (LSPMessage Json)) :
    Result GS Json P Q :=
  let state : QueueState Json := QueueState.fresh
  let state := messages.foldl enqueueRequest state
  processPending env st gs state.pendingRequests

/-- One step of threading the global state through `processRequest`, in the words of
the specification: the call is made on what the call before it returned; after
an exception no call is made. -/
def threadProcessRequest {GS Json P Q : Type} (env : Env GS Json P Q)
    (acc : Result GS Json P Q) (message : LSPMessage Json) : Result GS Json P Q :=
  match acc with
  | (st, .ok gs) => processRequest env st gs message
  | (st, .error e) => (st, .error e)

namespace Sample

/-- Modelled from the spec: `enqueueRequest`, whose body is not among the sources,
appends a message to the pending queue and counts it, when none of the
pre-processing rules (pause and resume, cancellation, merging of watchman
changes, merging of consecutive edits of one document) applies to the message. -/
def enqueueRequest (queue : QueueState SJson) (msg : LSPMessage SJson) : QueueState SJson :=
  { queue with pendingRequests := queue.pendingRequests ++ [msg],
               requestCounter := queue.requestCounter + 1 }

end Sample

/-! # Theorems -/

section Theorems

variable {GS Json P Q : Type}

/-- C1, as stated, fails: the cancelled request `Sample.cancelledExit` is a request, is
not a reply and passes the initialization check, yet its method tag is a
notification tag, so the dispatcher takes the notification branch and sends
nothing at all. -/
theorem c1_counterexample_cancelled_request_with_notification_tag :
    Sample.cancelledExit.isRequest = true ∧ Sample.cancelledExit.canceled = true ∧
    (Sample.env false).handleReplies (Sample.loop true) Sample.cancelledExit = false ∧
    (Sample.env false).ensureInitialized
      ((Sample.loop true).record (.handleReplies Sample.cancelledExit))
      ((Sample.env false).getByName Sample.cancelledExit.method) Sample.cancelledExit 5 = true ∧
    (Sample.env false).getByName Sample.cancelledExit.method = LSPMethod.Exit ∧
    ((processRequestInternal (Sample.env false) (Sample.loop true) 5
        Sample.cancelledExit).1.trace.any Event.isSend) = false := by
  refine ⟨rfl, rfl, rfl, rfl, rfl, rfl⟩

/-- C1 (amended): for every request message whose `canceled` flag is set, which is not a
reply, passes the initialization check and whose method tag is not a
notification tag, `processRequestInternal` makes, after the two opening checks,
exactly one call: `sendError` to the id of the request with code -32800 and
message "Request was canceled". No query handler and no typecheck is called,
no member of the loop is assigned, and the global state given is returned.
Nothing is assumed about the name of the method or about the parameters. -/
theorem c1_cancelled_request_replies_RequestCancelled
    (env : Env GS Json P Q) (st : LSPLoop GS Json P Q) (gs : GS) (msg : LSPMessage Json)
    (id : MessageId)
    (hreq : msg.envelope = .request id)
    (hcanceled : msg.canceled = true)
    (hreply : env.handleReplies st msg = false)
    (hinit : env.ensureInitialized (st.record (.handleReplies msg))
      (env.getByName msg.method) msg gs = true)
    (htag : (env.getByName msg.method).isNotification = false) :
    processRequestInternal env st gs msg =
      ({ st with trace := st.trace ++
          [.handleReplies msg, .ensureInitialized (env.getByName msg.method) msg gs,
           .sendError id (-32800) "Request was canceled"] }, .ok gs) := by
  simp only [LSPLoop.record] at hinit
  simp [processRequestInternal, processRequestBranch, hreq, hcanceled, hreply, hinit, htag,
    LSPLoop.record, LSPErrorCodes.toInt]

/-- C1 (amended), at the cancelled `textDocument/references` request with id 7 and no
parameters. -/
theorem c1_witness :
    processRequestInternal (Sample.env false) (Sample.loop true) 5 Sample.cancelledReferences =
      ({ Sample.loop true with trace := (Sample.loop true).trace ++
          [.handleReplies Sample.cancelledReferences,
           .ensureInitialized ((Sample.env false).getByName Sample.cancelledReferences.method)
             Sample.cancelledReferences 5,
           .sendError (.num 7) (-32800) "Request was canceled"] }, .ok 5) :=
  c1_cancelled_request_replies_RequestCancelled (Sample.env false) (Sample.loop true) 5
    Sample.cancelledReferences (.num 7) rfl rfl rfl rfl rfl

/-- C2: when `processRequestInternal` throws a `DeserializationError`, `processRequest`
calls `sendError` with code -32602 and the text of the error to the id of the
message when the message has one, makes no such call when it has none, and
then returns the global state of `runSlowPath` on the empty list of files; when
no `DeserializationError` is thrown, `processRequest` leaves exactly what
`processRequestInternal` leaves: the same loop object, hence no further call,
and the same returned state. -/
theorem c2_processRequest_catches_DeserializationError
    (env : Env GS Json P Q) (st : LSPLoop GS Json P Q) (gs : GS) (msg : LSPMessage Json) :
    (∀ st1 what,
      processRequestInternal env st gs msg = (st1, .error (.deserialization what)) →
      (∀ i, msg.id = some i →
        processRequest env st gs msg =
          ((st1.record (.sendError i (-32602) what)).record (.runSlowPath []),
            .ok (env.runSlowPath (st1.record (.sendError i (-32602) what)) []).gs)) ∧
      (msg.id = none →
        processRequest env st gs msg =
          (st1.record (.runSlowPath []), .ok (env.runSlowPath st1 []).gs))) ∧
    ((∀ what, (processRequestInternal env st gs msg).2 ≠ .error (.deserialization what)) →
      processRequest env st gs msg = processRequestInternal env st gs msg) := by
  refine ⟨?_, ?_⟩
  · intro st1 what h
    refine ⟨?_, ?_⟩
    · intro i hi
      simp [processRequest, h, hi, LSPErrorCodes.toInt]
    · intro hi
      simp [processRequest, h, hi]
  · intro h
    rcases hr : processRequestInternal env st gs msg with ⟨st1, r⟩
    rw [hr] at h
    cases r with
    | ok gs1 => simp [processRequest, hr]
    | error e =>
      cases e with
      | deserialization what => exact absurd rfl (h what)
      | outOfRange => simp [processRequest, hr]

/-- C2, at three messages: a hover request with id 3 and malformed parameters (the
error goes to id 3), a didChange notification with malformed parameters (no
reply), and a cancelled request (nothing is thrown). -/
theorem c2_witness :
    processRequest (Sample.env false) (Sample.loop true) 5 Sample.malformedHover =
      ((((processRequestInternal (Sample.env false) (Sample.loop true) 5
          Sample.malformedHover).1).record (.sendError (.num 3) (-32602) "root")).record
            (.runSlowPath []), .ok 0) ∧
    processRequest (Sample.env false) (Sample.loop true) 5 Sample.malformedDidChange =
      (((processRequestInternal (Sample.env false) (Sample.loop true) 5
          Sample.malformedDidChange).1).record (.runSlowPath []), .ok 0) ∧
    processRequest (Sample.env false) (Sample.loop true) 5 Sample.cancelledReferences =
      processRequestInternal (Sample.env false) (Sample.loop true) 5
        Sample.cancelledReferences :=
  ⟨((c2_processRequest_catches_DeserializationError (Sample.env false) (Sample.loop true) 5
      Sample.malformedHover).1 _ "root" rfl).1 (.num 3) rfl,
   ((c2_processRequest_catches_DeserializationError (Sample.env false) (Sample.loop true) 5
      Sample.malformedDidChange).1 _ "root.params" rfl).2 rfl,
   (c2_processRequest_catches_DeserializationError (Sample.env false) (Sample.loop true) 5
      Sample.cancelledReferences).2 (fun _ h => Except.noConfusion h)⟩

/-- C3, as stated, fails: `Sample.unknownWithoutParams` is a request, not a reply, not
cancelled, passes the initialization check, and its method is none of the nine
dispatched ones; yet no `MethodNotFound` reply is sent. When the unknown tag
does not count as a notification, the missing parameters are reported with
`InternalError` (-32603); when it does, the notification branch is taken and
nothing is sent. -/
theorem c3_counterexample_unknown_method_without_params :
    Sample.unknownWithoutParams.isRequest = true ∧
    Sample.unknownWithoutParams.canceled = false ∧
    Sample.unknownWithoutParams.method ∉ dispatchedRequestNames ∧
    (Sample.env false).handleReplies (Sample.loop true) Sample.unknownWithoutParams = false ∧
    (Sample.env false).ensureInitialized
      ((Sample.loop true).record (.handleReplies Sample.unknownWithoutParams))
      ((Sample.env false).getByName Sample.unknownWithoutParams.method)
      Sample.unknownWithoutParams 5 = true ∧
    processRequestInternal (Sample.env false) (Sample.loop true) 5 Sample.unknownWithoutParams =
      ({ Sample.loop true with trace :=
          [.handleReplies Sample.unknownWithoutParams,
           .ensureInitialized ((Sample.env false).getByName "foo/bar")
             Sample.unknownWithoutParams 5,
           .sendError (.num 7) (-32603) "Expected parameters, but found none."] }, .ok 5) ∧
    processRequestInternal (Sample.env true) (Sample.loop true) 5 Sample.unknownWithoutParams =
      ({ Sample.loop true with trace :=
          [.handleReplies Sample.unknownWithoutParams,
           .ensureInitialized ((Sample.env true).getByName "foo/bar")
             Sample.unknownWithoutParams 5] }, .ok 5) := by
  refine ⟨rfl, rfl, by decide, rfl, rfl, rfl, rfl⟩

/-- C3 (amended): for every request message that is not a reply, is not cancelled,
passes the initialization check, carries parameters, and whose method tag is
not a notification tag and is named none of initialize, shutdown,
textDocument/documentSymbol, workspace/symbol, textDocument/definition,
textDocument/hover, textDocument/completion, textDocument/signatureHelp,
textDocument/references, `processRequestInternal` replies to the id of the
request with the error -32601 and the message "Unknown method: " followed by
the name, calls nothing else after the two opening checks, and returns the global
state unchanged. -/
theorem c3_unknown_request_replies_MethodNotFound
    (env : Env GS Json P Q) (st : LSPLoop GS Json P Q) (gs : GS) (msg : LSPMessage Json)
    (id : MessageId) (rawParams : Json)
    (hreq : msg.envelope = .request id)
    (hcanceled : msg.canceled = false)
    (hparams : msg.params = some rawParams)
    (hreply : env.handleReplies st msg = false)
    (hinit : env.ensureInitialized (st.record (.handleReplies msg))
      (env.getByName msg.method) msg gs = true)
    (htag : (env.getByName msg.method).isNotification = false)
    (hunknown : (env.getByName msg.method).name ∉ dispatchedRequestNames) :
    processRequestInternal env st gs msg =
      ({ st with trace := st.trace ++
          [.handleReplies msg, .ensureInitialized (env.getByName msg.method) msg gs,
           .sendError id (-32601) ("Unknown method: " ++ (env.getByName msg.method).name)] },
       .ok gs) := by
  simp only [LSPLoop.record] at hinit
  simp only [dispatchedRequestNames, List.mem_cons, List.mem_singleton, not_or,
    List.not_mem_nil, not_false_eq_true, and_true] at hunknown
  obtain ⟨h1, h2, h3, h4, h5, h6, h7, h8, h9⟩ := hunknown
  have e1 : LSPMethod.Initialize.name = "initialize" := rfl
  have e2 : LSPMethod.Shutdown.name = "shutdown" := rfl
  have e3 : LSPMethod.TextDocumentDocumentSymbol.name = "textDocument/documentSymbol" := rfl
  have e4 : LSPMethod.WorkspaceSymbols.name = "workspace/symbol" := rfl
  have e5 : LSPMethod.TextDocumentDefinition.name = "textDocument/definition" := rfl
  have e6 : LSPMethod.TextDocumentHover.name = "textDocument/hover" := rfl
  have e7 : LSPMethod.TextDocumentCompletion.name = "textDocument/completion" := rfl
  have e8 : LSPMethod.TextDocumentSignatureHelp.name = "textDocument/signatureHelp" := rfl
  have e9 : LSPMethod.TextDocumentRefernces.name = "textDocument/references" := rfl
  simp [processRequestInternal, processRequestBranch, hreq, hcanceled, hparams, hreply, hinit,
    htag, LSPLoop.record, LSPErrorCodes.toInt, LSPMethod.eq, e1, e2, e3, e4, e5, e6, e7, e8, e9,
    Ne.symm h1, Ne.symm h2, Ne.symm h3, Ne.symm h4, Ne.symm h5, Ne.symm h6, Ne.symm h7,
    Ne.symm h8, Ne.symm h9]

/-- C3 (amended), at the request `foo/bar` with id 7 and parameters. -/
theorem c3_witness :
    processRequestInternal (Sample.env false) (Sample.loop true) 5 Sample.unknownWithParams =
      ({ Sample.loop true with trace := (Sample.loop true).trace ++
          [.handleReplies Sample.unknownWithParams,
           .ensureInitialized ((Sample.env false).getByName Sample.unknownWithParams.method)
             Sample.unknownWithParams 5,
           .sendError (.num 7) (-32601) ("Unknown method: " ++
             ((Sample.env false).getByName Sample.unknownWithParams.method).name)] }, .ok 5) :=
  c3_unknown_request_replies_MethodNotFound (Sample.env false) (Sample.loop true) 5
    Sample.unknownWithParams (.num 7) .null rfl rfl rfl rfl rfl rfl (by decide)

/-- The block of a document notification is left without returning when the URI of
the document is outside the root, and the blocks of the other methods do not
apply: the notification branch returns the global state without any call. -/
theorem processNotification_outside (env : Env GS Json P Q) (st : LSPLoop GS Json P Q)
    (gs : GS) (msg : LSPMessage Json) (uri : String)
    (hdoc :
      (env.getByName msg.method = LSPMethod.TextDocumentDidChange ∧
        ∃ edits, env.parseDidChange msg.params = .ok edits ∧ edits.textDocument.uri = uri) ∨
      (env.getByName msg.method = LSPMethod.TextDocumentDidOpen ∧
        ∃ edits, env.parseDidOpen msg.params = .ok edits ∧ edits.textDocument.uri = uri) ∨
      (env.getByName msg.method = LSPMethod.TextDocumentDidClose ∧
        ∃ edits, env.parseDidClose msg.params = .ok edits ∧ edits.textDocument.uri = uri))
    (houtside : startsWith uri st.rootUri = false) :
    processNotification env st gs msg (env.getByName msg.method) = (st, .ok gs) := by
  rcases hdoc with ⟨hm, edits, hp, hu⟩ | ⟨hm, edits, hp, hu⟩ | ⟨hm, edits, hp, hu⟩ <;>
    subst hu <;>
    simp [processNotification, didChange, didOpen, didClose, watchmanFileChange,
      initializedNotification, exitNotification, hm, hp, houtside, LSPMethod.eq,
      LSPMethod.TextDocumentDidChange, LSPMethod.TextDocumentDidOpen,
      LSPMethod.TextDocumentDidClose, LSPMethod.SorbetWatchmanFileChange,
      LSPMethod.Initialized, LSPMethod.Exit]

/-- The block of a document notification returns the global state at once when the
local path of the document is ignored. -/
theorem processNotification_ignored (env : Env GS Json P Q) (st : LSPLoop GS Json P Q)
    (gs : GS) (msg : LSPMessage Json) (uri : String)
    (hdoc :
      (env.getByName msg.method = LSPMethod.TextDocumentDidChange ∧
        ∃ edits, env.parseDidChange msg.params = .ok edits ∧ edits.textDocument.uri = uri) ∨
      (env.getByName msg.method = LSPMethod.TextDocumentDidOpen ∧
        ∃ edits, env.parseDidOpen msg.params = .ok edits ∧ edits.textDocument.uri = uri) ∨
      (env.getByName msg.method = LSPMethod.TextDocumentDidClose ∧
        ∃ edits, env.parseDidClose msg.params = .ok edits ∧ edits.textDocument.uri = uri))
    (hlocal : startsWith uri st.rootUri = true)
    (hignored : env.isFileIgnored st.rootPath (env.remoteName2Local st.rootUri st.rootPath uri)
      st.opts.absoluteIgnorePatterns st.opts.relativeIgnorePatterns = true) :
    processNotification env st gs msg (env.getByName msg.method) = (st, .ok gs) := by
  rcases hdoc with ⟨hm, edits, hp, hu⟩ | ⟨hm, edits, hp, hu⟩ | ⟨hm, edits, hp, hu⟩ <;>
    subst hu <;>
    simp [processNotification, didChange, didOpen, didClose, hm, hp, hlocal, hignored,
      LSPMethod.eq, LSPMethod.TextDocumentDidChange, LSPMethod.TextDocumentDidOpen,
      LSPMethod.TextDocumentDidClose]

/-- When the notification branch makes no call and returns the global state, the whole
of `processRequestInternal` makes the opening checks only and returns the
global state, whatever the checks answer. -/
theorem processRequestInternal_of_silent (env : Env GS Json P Q) (st : LSPLoop GS Json P Q)
    (gs : GS) (msg : LSPMessage Json)
    (htag : (env.getByName msg.method).isNotification = true)
    (hsilent : ∀ st1 : LSPLoop GS Json P Q,
      st1.rootUri = st.rootUri → st1.rootPath = st.rootPath → st1.opts = st.opts →
      processNotification env st1 gs msg (env.getByName msg.method) = (st1, .ok gs)) :
    ∃ pre : List (Event GS Json P Q), (∀ e ∈ pre, e.isPrecheck = true) ∧
      processRequestInternal env st gs msg = ({ st with trace := st.trace ++ pre }, .ok gs) := by
  unfold processRequestInternal
  by_cases hr : env.handleReplies st msg = true
  · exact ⟨[.handleReplies msg], by simp [Event.isPrecheck], by simp [hr, LSPLoop.record]⟩
  · by_cases hi : env.ensureInitialized (st.record (.handleReplies msg))
        (env.getByName msg.method) msg gs = true
    · refine ⟨[.handleReplies msg, .ensureInitialized (env.getByName msg.method) msg gs],
        by simp [Event.isPrecheck], ?_⟩
      simp only [hr, hi, htag]
      simp [hsilent, LSPLoop.record]
    · refine ⟨[.handleReplies msg, .ensureInitialized (env.getByName msg.method) msg gs],
        by simp [Event.isPrecheck], ?_⟩
      simp only [LSPLoop.record] at hi
      simp [hr, hi, LSPLoop.record]

/-- The three document notifications carry notification tags. -/
theorem document_tag_isNotification (env : Env GS Json P Q) (msg : LSPMessage Json)
    (hdoc : env.getByName msg.method = LSPMethod.TextDocumentDidChange ∨
      env.getByName msg.method = LSPMethod.TextDocumentDidOpen ∨
      env.getByName msg.method = LSPMethod.TextDocumentDidClose) :
    (env.getByName msg.method).isNotification = true := by
  rcases hdoc with h | h | h <;> rw [h] <;> rfl

/-- C4: for every textDocument/didChange, textDocument/didOpen or
textDocument/didClose notification whose document URI does not start with
`rootUri`, `processRequestInternal` returns the global state it was given, and
the loop object it leaves differs from the one it was given only by the calls of
the two opening checks (`handleReplies`, `ensureInitialized`) in the trace:
`tryFastPath`, `handleWatchmanUpdates` and `pushDiagnostics` are not called,
nothing is sent, and the open-file set is unchanged. -/
theorem c4_document_outside_root_does_no_work
    (env : Env GS Json P Q) (st : LSPLoop GS Json P Q) (gs : GS) (msg : LSPMessage Json)
    (uri : String)
    (hdoc :
      (env.getByName msg.method = LSPMethod.TextDocumentDidChange ∧
        ∃ edits, env.parseDidChange msg.params = .ok edits ∧ edits.textDocument.uri = uri) ∨
      (env.getByName msg.method = LSPMethod.TextDocumentDidOpen ∧
        ∃ edits, env.parseDidOpen msg.params = .ok edits ∧ edits.textDocument.uri = uri) ∨
      (env.getByName msg.method = LSPMethod.TextDocumentDidClose ∧
        ∃ edits, env.parseDidClose msg.params = .ok edits ∧ edits.textDocument.uri = uri))
    (houtside : startsWith uri st.rootUri = false) :
    ∃ pre : List (Event GS Json P Q), (∀ e ∈ pre, e.isPrecheck = true) ∧
      processRequestInternal env st gs msg = ({ st with trace := st.trace ++ pre }, .ok gs) := by
  apply processRequestInternal_of_silent
  · apply document_tag_isNotification
    rcases hdoc with h | h | h
    · exact Or.inl h.1
    · exact Or.inr (Or.inl h.1)
    · exact Or.inr (Or.inr h.1)
  · intro st1 h1 _ _
    exact processNotification_outside env st1 gs msg uri hdoc (by rw [h1]; exact houtside)

/-- C4, at the didChange notification for `file:///elsewhere/x.rb` in the workspace
`file:///w`. -/
theorem c4_witness :
    ∃ pre : List (Event Nat Sample.SJson Unit Nat), (∀ e ∈ pre, e.isPrecheck = true) ∧
      processRequestInternal (Sample.env false) (Sample.loop true) 5 Sample.didChangeElsewhere =
        ({ Sample.loop true with trace := (Sample.loop true).trace ++ pre }, .ok 5) :=
  c4_document_outside_root_does_no_work (Sample.env false) (Sample.loop true) 5
    Sample.didChangeElsewhere "file:///elsewhere/x.rb" (Or.inl ⟨rfl, _, rfl, rfl⟩) rfl

/-- C5: for every textDocument/didOpen, textDocument/didChange or
textDocument/didClose notification whose URI starts with `rootUri` and whose
local path `isFileIgnored` reports as ignored, `processRequestInternal` returns
the global state it was given, and the loop object it leaves differs from the
one it was given only by the calls of the two opening checks in the trace: no
typecheck and no watchman update is run, nothing is published, and the
open-file set is the one given (nothing is inserted, nothing is removed). -/
theorem c5_ignored_document_is_silently_ignored
    (env : Env GS Json P Q) (st : LSPLoop GS Json P Q) (gs : GS) (msg : LSPMessage Json)
    (uri : String)
    (hdoc :
      (env.getByName msg.method = LSPMethod.TextDocumentDidChange ∧
        ∃ edits, env.parseDidChange msg.params = .ok edits ∧ edits.textDocument.uri = uri) ∨
      (env.getByName msg.method = LSPMethod.TextDocumentDidOpen ∧
        ∃ edits, env.parseDidOpen msg.params = .ok edits ∧ edits.textDocument.uri = uri) ∨
      (env.getByName msg.method = LSPMethod.TextDocumentDidClose ∧
        ∃ edits, env.parseDidClose msg.params = .ok edits ∧ edits.textDocument.uri = uri))
    (hlocal : startsWith uri st.rootUri = true)
    (hignored : env.isFileIgnored st.rootPath (env.remoteName2Local st.rootUri st.rootPath uri)
      st.opts.absoluteIgnorePatterns st.opts.relativeIgnorePatterns = true) :
    ∃ pre : List (Event GS Json P Q), (∀ e ∈ pre, e.isPrecheck = true) ∧
      processRequestInternal env st gs msg = ({ st with trace := st.trace ++ pre }, .ok gs) := by
  apply processRequestInternal_of_silent
  · apply document_tag_isNotification
    rcases hdoc with h | h | h
    · exact Or.inl h.1
    · exact Or.inr (Or.inl h.1)
    · exact Or.inr (Or.inr h.1)
  · intro st1 h1 h2 h3
    exact processNotification_ignored env st1 gs msg uri hdoc (by rw [h1]; exact hlocal)
      (by rw [h1, h2, h3]; exact hignored)

/-- C5, at the didOpen notification for `file:///w/vendor/a.rb`, whose local path
`/w/vendor/a.rb` the options ignore. -/
theorem c5_witness :
    ∃ pre : List (Event Nat Sample.SJson Unit Nat), (∀ e ∈ pre, e.isPrecheck = true) ∧
      processRequestInternal (Sample.env false) (Sample.loop true) 5 Sample.didOpenVendor =
        ({ Sample.loop true with trace := (Sample.loop true).trace ++ pre }, .ok 5) :=
  c5_ignored_document_is_silently_ignored (Sample.env false) (Sample.loop true) 5
    Sample.didOpenVendor "file:///w/vendor/a.rb" (Or.inr (Or.inl ⟨rfl, _, rfl, rfl⟩)) rfl rfl

/-- The difference of two unsigned 32-bit integers is the difference of the numbers when
the first is not the smaller one. -/
theorem u4Sub_of_le {a b : Nat} (hab : b ≤ a) (ha : a < u4Size) : u4Sub a b = a - b := by
  unfold u4Sub
  have h : a + u4Size - b = (a - b) + u4Size := by omega
  rw [h, Nat.add_mod_right]
  exact Nat.mod_eq_of_lt (by omega)

/-- Replacing a range that lies inside the string keeps what is before and what is
after the range. -/
theorem stringReplace_inside (old : String) (s e : Nat) (text : String)
    (hse : s ≤ e) (he : e ≤ old.length) :
    stringReplace old s (e - s) text =
      some ⟨old.data.take s ++ text.data ++ old.data.drop e⟩ := by
  unfold stringReplace
  have h1 : ¬ old.length < s := by omega
  have h2 : s + min (e - s) (old.length - s) = e := by
    rw [Nat.min_eq_left (by omega)]
    omega
  simp only [h1, if_false, h2]

/-- C6: for every current file `old` and every content change that carries a range
whose start and end positions `pos2Offset` maps, on the current file, to the
byte offsets `s` and `e` with `s ≤ e ≤ |old|`, the iteration of the didChange
loop produces the file of the same path whose text is
`old[0, s) ++ change.text ++ old[e, |old|)`; its length is
`|old| - (e - s) + |change.text|`. -/
theorem c6_range_change_replaces_exactly_the_range
    (env : Env GS Json P Q) (old : File) (change : TextDocumentContentChangeEvent)
    (range : Range) (s e : Nat)
    (hrange : change.range = some range)
    (hs : env.pos2Offset old (positionToDetail range.start) % u4Size = s)
    (he : env.pos2Offset old (positionToDetail range.end_) % u4Size = e)
    (hse : s ≤ e) (hlen : e ≤ old.source.length) :
    applyContentChange env old change =
      .ok { path := old.path,
            source := ⟨old.source.data.take s ++ change.text.data ++ old.source.data.drop e⟩ } ∧
    (String.mk (old.source.data.take s ++ change.text.data ++ old.source.data.drop e)).length =
      old.source.length - (e - s) + change.text.length := by
  have hlt : e < u4Size := by
    rw [← he]
    exact Nat.mod_lt _ (by decide)
  refine ⟨?_, ?_⟩
  · unfold applyContentChange
    simp only [hrange, hs, he, u4Sub_of_le hse hlt, stringReplace_inside _ s e _ hse hlen]
  · show (old.source.data.take s ++ change.text.data ++ old.source.data.drop e).length =
      old.source.data.length - (e - s) + change.text.data.length
    have hlen1 : e ≤ old.source.data.length := hlen
    simp only [List.length_append, List.length_take, List.length_drop]
    omega

/-- C6, at the file `x = 1\nfoo` and the change of the characters 4 to 5 of line 0 into
`42`: the offsets are 4 and 5, and the new text is `x = 42\nfoo`. -/
theorem c6_witness :
    applyContentChange (Sample.env false) Sample.fileA Sample.changeDigit =
      .ok { path := Sample.fileA.path,
            source := ⟨Sample.fileA.source.data.take 4 ++ Sample.changeDigit.text.data ++
              Sample.fileA.source.data.drop 5⟩ } ∧
    (String.mk (Sample.fileA.source.data.take 4 ++ Sample.changeDigit.text.data ++
        Sample.fileA.source.data.drop 5)).length =
      Sample.fileA.source.length - (5 - 4) + Sample.changeDigit.text.length :=
  c6_range_change_replaces_exactly_the_range (Sample.env false) Sample.fileA Sample.changeDigit
    { start := { line := 0, character := 4 }, end_ := { line := 0, character := 5 } } 4 5
    rfl (by decide) (by decide) (by decide) (by decide)

/-- C7: for every starting file and every two lists of content changes `c1` and `c2`,
the loop over `c1 ++ c2` yields what the loop over `c1` followed by the loop over
`c2` on the file of the first run yields: the same file (path and contents)
when both runs succeed, and the same exception when one of them throws. -/
theorem c7_loop_over_concatenation_is_sequential_loops
    (env : Env GS Json P Q) (file : File) (c1 c2 : List TextDocumentContentChangeEvent) :
    applyContentChanges env file (c1 ++ c2) =
      match applyContentChanges env file c1 with
      | .error e => .error e
      | .ok file1 => applyContentChanges env file1 c2 := by
  induction c1 generalizing file with
  | nil => simp [applyContentChanges]
  | cons change rest ih =>
    simp only [List.cons_append, applyContentChanges]
    cases h : applyContentChange env file change with
    | error e => simp
    | ok file1 => simpa using ih file1

/-- The conversion to an unsigned 32-bit integer keeps the successor of a non-negative
`int`. -/
theorem toU4_succ (x : Int) (h0 : 0 ≤ x) (h1 : x < 2147483648) :
    ((toU4 (x + 1) : Nat) : Int) = x + 1 := by
  unfold toU4 u4Size
  have h : (x + 1) % ((4294967296 : Nat) : Int) = x + 1 :=
    Int.emod_eq_of_lt (by omega) (by push_cast; omega)
  rw [h]
  exact Int.toNat_of_nonneg (by omega)

/-- C10: for every LSP position whose line and character are non-negative `int`s, the
internal position that the didChange loop builds is (line + 1, character + 1),
both of its components are at least 1, and converting it back with
`lsp_line = internal_line - 1`, `lsp_character = internal_column - 1` gives the
position back; the loop translates the start and the end of a range with this
one translation before it asks `pos2Offset` for their offsets. -/
theorem c10_position_round_trip (p : Position)
    (hline : 0 ≤ p.line) (hcharacter : 0 ≤ p.character)
    (hlineInt : p.line < 2147483648) (hcharacterInt : p.character < 2147483648) :
    ((positionToDetail p).line : Int) = p.line + 1 ∧
    ((positionToDetail p).column : Int) = p.character + 1 ∧
    1 ≤ (positionToDetail p).line ∧ 1 ≤ (positionToDetail p).column ∧
    detailToPosition (positionToDetail p) = p ∧
    (∀ (env : Env GS Json P Q) (file : File) (change : TextDocumentContentChangeEvent)
        (range : Range), change.range = some range →
      applyContentChange env file change =
        match stringReplace file.source
            (env.pos2Offset file (positionToDetail range.start) % u4Size)
            (u4Sub (env.pos2Offset file (positionToDetail range.end_) % u4Size)
              (env.pos2Offset file (positionToDetail range.start) % u4Size)) change.text with
        | none => .error .outOfRange
        | some newContent => .ok { path := file.path, source := newContent }) := by
  have hl := toU4_succ p.line hline hlineInt
  have hc := toU4_succ p.character hcharacter hcharacterInt
  refine ⟨hl, hc, ?_, ?_, ?_, ?_⟩
  · have : ((positionToDetail p).line : Int) = p.line + 1 := hl
    omega
  · have : ((positionToDetail p).column : Int) = p.character + 1 := hc
    omega
  · cases p with
    | mk line character =>
      simp only [detailToPosition, positionToDetail] at hl hc ⊢
      simp only [hl, hc, add_sub_cancel_right]
  · intro env file change range hrange
    simp only [applyContentChange, hrange]

/-- C10, at the position line 0, character 4: the internal position is line 1,
column 5. -/
theorem c10_witness :
    ((positionToDetail { line := 0, character := 4 }).line : Int) = (0 : Int) + 1 ∧
    ((positionToDetail { line := 0, character := 4 }).column : Int) = (4 : Int) + 1 ∧
    1 ≤ (positionToDetail { line := 0, character := 4 }).line ∧
    1 ≤ (positionToDetail { line := 0, character := 4 }).column ∧
    detailToPosition (positionToDetail { line := 0, character := 4 }) =
      { line := 0, character := 4 } :=
  have h := @c10_position_round_trip Nat Sample.SJson Unit Nat
    { line := 0, character := 4 } (by decide) (by decide) (by decide) (by decide)
  ⟨h.1, h.2.1, h.2.2.1, h.2.2.2.1, h.2.2.2.2.1⟩

/-- Erasing an element that a set does not contain leaves the set as it is. -/
theorem UnorderedSet.erase_of_not_mem (s : UnorderedSet) (x : String) (h : x ∉ s.elems) :
    s.erase x = s := by
  cases s with
  | mk elems nodup =>
    simp only [UnorderedSet.erase]
    congr
    exact List.erase_of_not_mem h

/-- The elements of a set after an insertion. -/
theorem UnorderedSet.mem_insert (s : UnorderedSet) (x q : String) :
    q ∈ (s.insert x).elems ↔ q = x ∨ q ∈ s.elems := by
  simp [UnorderedSet.insert, List.mem_insert_iff]

/-- The elements of a set after a removal. -/
theorem UnorderedSet.mem_erase (s : UnorderedSet) (x q : String) :
    q ∈ (s.erase x).elems ↔ q ≠ x ∧ q ∈ s.elems := by
  simp [UnorderedSet.erase, s.nodup.mem_erase_iff]

/-- Inserting an element that a set does not contain and removing it again gives the
set back. -/
theorem UnorderedSet.erase_insert (s : UnorderedSet) (x : String) (h : x ∉ s.elems) :
    (s.insert x).erase x = s := by
  cases s with
  | mk elems nodup =>
    simp only [UnorderedSet.erase, UnorderedSet.insert]
    congr
    rw [List.insert_of_not_mem h]
    simp

/-- The handler of didOpen on a local document that is not ignored: the path is
inserted into the open-file set, then `tryFastPath` and `pushDiagnostics` run. -/
theorem didOpen_step (env : Env GS Json P Q) (st : LSPLoop GS Json P Q) (gs : GS)
    (msg : LSPMessage Json) (edits : DidOpenTextDocumentParams)
    (hm : env.getByName msg.method = LSPMethod.TextDocumentDidOpen)
    (hp : env.parseDidOpen msg.params = .ok edits)
    (hlocal : startsWith edits.textDocument.uri st.rootUri = true)
    (hkept : env.isFileIgnored st.rootPath
      (env.remoteName2Local st.rootUri st.rootPath edits.textDocument.uri)
      st.opts.absoluteIgnorePatterns st.opts.relativeIgnorePatterns = false)
    (hreply : env.handleReplies st msg = false)
    (hinit : env.ensureInitialized (st.record (.handleReplies msg))
      (env.getByName msg.method) msg gs = true) :
    ∃ (gs1 : GS) (run : TypecheckRun GS P),
      processRequestInternal env st gs msg =
        ({ st with
            openFiles := st.openFiles.insert
              (env.remoteName2Local st.rootUri st.rootPath edits.textDocument.uri),
            trace := st.trace ++
              [.handleReplies msg, .ensureInitialized (env.getByName msg.method) msg gs,
               .tryFastPath gs
                 [{ path := env.remoteName2Local st.rootUri st.rootPath edits.textDocument.uri,
                    source := edits.textDocument.text }],
               .pushDiagnostics run] }, .ok gs1) := by
  simp only [LSPLoop.record, hm] at hinit
  have htag : LSPMethod.TextDocumentDidOpen.isNotification = true := rfl
  have h1 : LSPMethod.TextDocumentDidOpen.eq LSPMethod.TextDocumentDidChange = false := by
    decide
  have h2 : LSPMethod.TextDocumentDidOpen.eq LSPMethod.TextDocumentDidOpen = true := by decide
  simp only [processRequestInternal, LSPLoop.record, hm, hreply, hinit, htag,
    processNotification, didChange, didOpen, hp, hlocal, hkept, h1, h2, Bool.false_eq_true,
    if_false, if_true, Bool.not_true, List.append_assoc, List.singleton_append,
    List.cons_append, List.nil_append]
  exact ⟨_, _, rfl⟩

/-- The handler of didClose on a local document that is not ignored: the path is
removed from the open-file set, then `handleWatchmanUpdates` runs on the one path. -/
theorem didClose_step (env : Env GS Json P Q) (st : LSPLoop GS Json P Q) (gs : GS)
    (msg : LSPMessage Json) (edits : DidCloseTextDocumentParams)
    (hm : env.getByName msg.method = LSPMethod.TextDocumentDidClose)
    (hp : env.parseDidClose msg.params = .ok edits)
    (hlocal : startsWith edits.textDocument.uri st.rootUri = true)
    (hkept : env.isFileIgnored st.rootPath
      (env.remoteName2Local st.rootUri st.rootPath edits.textDocument.uri)
      st.opts.absoluteIgnorePatterns st.opts.relativeIgnorePatterns = false)
    (hreply : env.handleReplies st msg = false)
    (hinit : env.ensureInitialized (st.record (.handleReplies msg))
      (env.getByName msg.method) msg gs = true) :
    ∃ gs1 : GS,
      processRequestInternal env st gs msg =
        ({ st with
            openFiles := st.openFiles.erase
              (env.remoteName2Local st.rootUri st.rootPath edits.textDocument.uri),
            trace := st.trace ++
              [.handleReplies msg, .ensureInitialized (env.getByName msg.method) msg gs,
               .handleWatchmanUpdates gs
                 [env.remoteName2Local st.rootUri st.rootPath edits.textDocument.uri]] },
         .ok gs1) := by
  simp only [LSPLoop.record, hm] at hinit
  have htag : LSPMethod.TextDocumentDidClose.isNotification = true := rfl
  have h1 : LSPMethod.TextDocumentDidClose.eq LSPMethod.TextDocumentDidChange = false := by
    decide
  have h2 : LSPMethod.TextDocumentDidClose.eq LSPMethod.TextDocumentDidOpen = false := by
    decide
  have h3 : LSPMethod.TextDocumentDidClose.eq LSPMethod.TextDocumentDidClose = true := by
    decide
  simp only [processRequestInternal, LSPLoop.record, hm, hreply, hinit, htag,
    processNotification, didChange, didOpen, didClose, hp, hlocal, hkept, h1, h2, h3,
    Bool.false_eq_true, if_false, if_true, Bool.not_true, List.append_assoc,
    List.singleton_append, List.cons_append, List.nil_append]
  by_cases hc : st.openFiles.contains
      (env.remoteName2Local st.rootUri st.rootPath edits.textDocument.uri) = true
  · simp only [hc, if_true, List.append_assoc, List.cons_append, List.nil_append]
    exact ⟨_, rfl⟩
  · have hnot : env.remoteName2Local st.rootUri st.rootPath edits.textDocument.uri ∉
        st.openFiles.elems := by
      simpa [UnorderedSet.contains] using hc
    have hc1 : st.openFiles.contains
        (env.remoteName2Local st.rootUri st.rootPath edits.textDocument.uri) = false := by
      simpa using hc
    simp only [hc1, Bool.false_eq_true, if_false, UnorderedSet.erase_of_not_mem _ _ hnot,
      List.append_assoc, List.cons_append, List.nil_append]
    exact ⟨_, rfl⟩

/-- C9: for every document URI under `rootUri` whose local path `path` is not ignored:
a didOpen notification leaves the open-file set with `path` inserted; a
didClose notification leaves it with `path` removed (the set is unchanged when
`path` was not open), and after the two opening checks it makes one call,
`handleWatchmanUpdates` with the list `[path]`; in both cases every other path is
a member afterwards exactly when it was before; and a didOpen followed by a
didClose of a path that was not open gives the original open-file set back. -/
theorem c9_open_file_set_tracks_didOpen_and_didClose
    (env : Env GS Json P Q) (st : LSPLoop GS Json P Q) (gs : GS)
    (opened closed : LSPMessage Json) (openEdits : DidOpenTextDocumentParams)
    (closeEdits : DidCloseTextDocumentParams) (path : String)
    (hopened : env.getByName opened.method = LSPMethod.TextDocumentDidOpen)
    (hopenParams : env.parseDidOpen opened.params = .ok openEdits)
    (hclosed : env.getByName closed.method = LSPMethod.TextDocumentDidClose)
    (hcloseParams : env.parseDidClose closed.params = .ok closeEdits)
    (hsame : closeEdits.textDocument.uri = openEdits.textDocument.uri)
    (hlocal : startsWith openEdits.textDocument.uri st.rootUri = true)
    (hpath : env.remoteName2Local st.rootUri st.rootPath openEdits.textDocument.uri = path)
    (hkept : env.isFileIgnored st.rootPath path st.opts.absoluteIgnorePatterns
      st.opts.relativeIgnorePatterns = false)
    (hreply : ∀ s, env.handleReplies s opened = false ∧ env.handleReplies s closed = false)
    (hinit : ∀ s g, s.initialized = st.initialized →
      env.ensureInitialized s (env.getByName opened.method) opened g = true ∧
      env.ensureInitialized s (env.getByName closed.method) closed g = true) :
    (∃ st1 gs1, processRequestInternal env st gs opened = (st1, .ok gs1) ∧
      st1.openFiles = st.openFiles.insert path ∧
      (∀ q, q ∈ st1.openFiles.elems ↔ q = path ∨ q ∈ st.openFiles.elems)) ∧
    (∃ st1 gs1, processRequestInternal env st gs closed = (st1, .ok gs1) ∧
      st1.openFiles = st.openFiles.erase path ∧
      (∀ q, q ∈ st1.openFiles.elems ↔ q ≠ path ∧ q ∈ st.openFiles.elems) ∧
      (path ∉ st.openFiles.elems → st1.openFiles = st.openFiles) ∧
      st1.trace = st.trace ++
        [.handleReplies closed, .ensureInitialized (env.getByName closed.method) closed gs,
         .handleWatchmanUpdates gs [path]]) ∧
    (path ∉ st.openFiles.elems →
      ∃ st1 gs1 st2 gs2, processRequestInternal env st gs opened = (st1, .ok gs1) ∧
        processRequestInternal env st1 gs1 closed = (st2, .ok gs2) ∧
        st2.openFiles = st.openFiles) := by
  subst hpath
  obtain ⟨gs1, run, hopen⟩ := didOpen_step env st gs opened openEdits hopened hopenParams
    hlocal hkept (hreply st).1 (hinit (st.record _) gs rfl).1
  obtain ⟨gs2, hclose⟩ := didClose_step env st gs closed closeEdits hclosed hcloseParams
    (by rw [hsame]; exact hlocal) (by rw [hsame]; exact hkept) (hreply st).2
    (hinit (st.record _) gs rfl).2
  rw [hsame] at hclose
  refine ⟨⟨_, gs1, hopen, rfl, fun q => UnorderedSet.mem_insert _ _ q⟩,
    ⟨_, gs2, hclose, rfl, fun q => UnorderedSet.mem_erase _ _ q,
      fun h => UnorderedSet.erase_of_not_mem _ _ h, rfl⟩, ?_⟩
  intro hnew
  rcases hres : processRequestInternal env st gs opened with ⟨st1, r⟩
  rw [hres] at hopen
  obtain ⟨h1, h2⟩ := Prod.mk.inj hopen
  subst h2
  have hroot : st1.rootUri = st.rootUri := by rw [h1]
  have hrootPath : st1.rootPath = st.rootPath := by rw [h1]
  have hopts : st1.opts = st.opts := by rw [h1]
  have hinitialized : st1.initialized = st.initialized := by rw [h1]
  obtain ⟨gs3, hclose1⟩ := didClose_step env st1 gs1 closed closeEdits hclosed hcloseParams
    (by rw [hsame, hroot]; exact hlocal)
    (by rw [hsame, hroot, hrootPath, hopts]; exact hkept) (hreply _).2
    (hinit (st1.record _) gs1 hinitialized).2
  refine ⟨st1, gs1, _, gs3, rfl, hclose1, ?_⟩
  show st1.openFiles.erase _ = st.openFiles
  rw [hsame, hroot, hrootPath, h1]
  exact UnorderedSet.erase_insert _ _ hnew

/-- C9, at the didOpen and didClose notifications for `file:///w/a.rb` in a loop whose
open-file set is empty: the local path is `/w/a.rb`. -/
theorem c9_witness :
    (∃ st1 gs1, processRequestInternal (Sample.env false) (Sample.loop true) 5 Sample.didOpenA =
        (st1, .ok gs1) ∧
      st1.openFiles = (Sample.loop true).openFiles.insert "/w/a.rb" ∧
      (∀ q, q ∈ st1.openFiles.elems ↔ q = "/w/a.rb" ∨ q ∈ (Sample.loop true).openFiles.elems)) ∧
    (∃ st1 gs1, processRequestInternal (Sample.env false) (Sample.loop true) 5 Sample.didCloseA =
        (st1, .ok gs1) ∧
      st1.openFiles = (Sample.loop true).openFiles.erase "/w/a.rb" ∧
      (∀ q, q ∈ st1.openFiles.elems ↔ q ≠ "/w/a.rb" ∧ q ∈ (Sample.loop true).openFiles.elems) ∧
      ("/w/a.rb" ∉ (Sample.loop true).openFiles.elems →
        st1.openFiles = (Sample.loop true).openFiles) ∧
      st1.trace = (Sample.loop true).trace ++
        [.handleReplies Sample.didCloseA,
         .ensureInitialized ((Sample.env false).getByName Sample.didCloseA.method)
           Sample.didCloseA 5,
         .handleWatchmanUpdates 5 ["/w/a.rb"]]) ∧
    ("/w/a.rb" ∉ (Sample.loop true).openFiles.elems →
      ∃ st1 gs1 st2 gs2,
        processRequestInternal (Sample.env false) (Sample.loop true) 5 Sample.didOpenA =
          (st1, .ok gs1) ∧
        processRequestInternal (Sample.env false) st1 gs1 Sample.didCloseA = (st2, .ok gs2) ∧
        st2.openFiles = (Sample.loop true).openFiles) :=
  c9_open_file_set_tracks_didOpen_and_didClose (Sample.env false) (Sample.loop true) 5
    Sample.didOpenA Sample.didCloseA
    { textDocument := { uri := "file:///w/a.rb", text := "x = 1" } }
    { textDocument := { uri := "file:///w/a.rb" } } "/w/a.rb"
    rfl rfl rfl rfl rfl rfl rfl rfl (fun _ => ⟨rfl, rfl⟩)
    (fun s _ h => by
      have hs : s.initialized = true := h
      simp [Sample.env, hs])

/-- The elements of a set after the insertion of the elements of a list. -/
theorem UnorderedSet.mem_foldl_insert (l : List String) (s : UnorderedSet) (x : String) :
    x ∈ (l.foldl UnorderedSet.insert s).elems ↔ x ∈ s.elems ∨ x ∈ l := by
  induction l generalizing s with
  | nil => simp
  | cons a rest ih =>
    simp only [List.foldl_cons, ih, UnorderedSet.mem_insert, List.mem_cons]
    tauto

/-- Dispatching a concatenation of two lists of messages is dispatching the first list
and then, when no exception was thrown, the second. -/
theorem dispatchAll_append (env : Env GS Json P Q) (st : LSPLoop GS Json P Q) (gs : GS)
    (a b : List (LSPMessage Json)) :
    dispatchAll env st gs (a ++ b) =
      match dispatchAll env st gs a with
      | (st1, .ok gs1) => dispatchAll env st1 gs1 b
      | (st1, .error e) => (st1, .error e) := by
  induction a generalizing st gs with
  | nil => simp [dispatchAll]
  | cons msg rest ih =>
    simp only [List.cons_append, dispatchAll]
    rcases h : processRequestInternal env st gs msg with ⟨st1, r⟩
    cases r with
    | error e => simp
    | ok gs1 => simpa using ih st1 gs1

/-- The handler of a watchman notification before initialization: the absolute paths
are added to the deferred set, nothing else is called, and the global state is
returned. -/
theorem watchman_step (env : Env GS Json P Q) (st : LSPLoop GS Json P Q) (gs : GS)
    (msg : LSPMessage Json) (queryResponse : WatchmanQueryResponse)
    (hm : env.getByName msg.method = LSPMethod.SorbetWatchmanFileChange)
    (hp : env.parseWatchman msg.params = .ok queryResponse)
    (huninit : st.initialized = false)
    (hreply : env.handleReplies st msg = false)
    (hinit : env.ensureInitialized (st.record (.handleReplies msg))
      (env.getByName msg.method) msg gs = true) :
    processRequestInternal env st gs msg =
      ({ st with
          deferredWatchmanUpdates :=
            (queryResponse.files.map (fun relPath => st.rootPath ++ "/" ++ relPath)).foldl
              UnorderedSet.insert st.deferredWatchmanUpdates,
          trace := st.trace ++
            [.handleReplies msg, .ensureInitialized (env.getByName msg.method) msg gs] },
       .ok gs) := by
  simp only [LSPLoop.record, hm, huninit] at hinit
  have htag : LSPMethod.SorbetWatchmanFileChange.isNotification = true := rfl
  have h1 : LSPMethod.SorbetWatchmanFileChange.eq LSPMethod.TextDocumentDidChange = false := by
    decide
  have h2 : LSPMethod.SorbetWatchmanFileChange.eq LSPMethod.TextDocumentDidOpen = false := by
    decide
  have h3 : LSPMethod.SorbetWatchmanFileChange.eq LSPMethod.TextDocumentDidClose = false := by
    decide
  have h4 : LSPMethod.SorbetWatchmanFileChange.eq LSPMethod.SorbetWatchmanFileChange = true := by
    decide
  simp only [processRequestInternal, LSPLoop.record, hm, hreply, hinit, htag,
    processNotification, didChange, didOpen, didClose, watchmanFileChange, hp, huninit, h1, h2,
    h3, h4, Bool.false_eq_true, if_false, if_true, Bool.not_true, Bool.not_false,
    List.append_assoc, List.singleton_append, List.cons_append, List.nil_append, strCat3]

/-- A run of watchman notifications before initialization: the global state is
returned unchanged, the trace gains the opening checks only, the deferred set
gains exactly the absolute paths of the files listed, and no other member of
the loop changes. -/
theorem watchman_sequence (env : Env GS Json P Q) (gs : GS) (ws : List (LSPMessage Json))
    (hwatch : ∀ m ∈ ws, env.getByName m.method = LSPMethod.SorbetWatchmanFileChange ∧
      ∃ q, env.parseWatchman m.params = .ok q)
    (hreply : ∀ s, ∀ m ∈ ws, env.handleReplies s m = false)
    (hinit : ∀ s g, ∀ m ∈ ws, env.ensureInitialized s (env.getByName m.method) m g = true)
    (st : LSPLoop GS Json P Q) (huninit : st.initialized = false) :
    ∃ (stW : LSPLoop GS Json P Q) (pre : List (Event GS Json P Q)),
      dispatchAll env st gs ws = (stW, .ok gs) ∧
      stW = { st with deferredWatchmanUpdates := stW.deferredWatchmanUpdates,
                      trace := st.trace ++ pre } ∧
      (∀ e ∈ pre, e.isPrecheck = true) ∧
      (∀ x, x ∈ stW.deferredWatchmanUpdates.elems ↔
        x ∈ st.deferredWatchmanUpdates.elems ∨
        ∃ m ∈ ws, ∃ q, env.parseWatchman m.params = .ok q ∧
          ∃ p ∈ q.files, x = st.rootPath ++ "/" ++ p) := by
  induction ws generalizing st with
  | nil => exact ⟨st, [], rfl, by simp, by simp, by simp⟩
  | cons m rest ih =>
    obtain ⟨hm, q, hq⟩ := hwatch m (List.mem_cons_self _ _)
    have hstep := watchman_step env st gs m q hm hq huninit
      (hreply st m (List.mem_cons_self _ _)) (hinit _ gs m (List.mem_cons_self _ _))
    obtain ⟨stW, pre, hrun, hshape, hpre, hmem⟩ :=
      ih (fun m1 h1 => hwatch m1 (List.mem_cons_of_mem _ h1))
        (fun s m1 h1 => hreply s m1 (List.mem_cons_of_mem _ h1))
        (fun s g m1 h1 => hinit s g m1 (List.mem_cons_of_mem _ h1))
        { st with
          deferredWatchmanUpdates :=
            (q.files.map (fun relPath => st.rootPath ++ "/" ++ relPath)).foldl
              UnorderedSet.insert st.deferredWatchmanUpdates,
          trace := st.trace ++
            [.handleReplies m, .ensureInitialized (env.getByName m.method) m gs] }
        huninit
    refine ⟨stW, [.handleReplies m, .ensureInitialized (env.getByName m.method) m gs] ++ pre,
      ?_, ?_, ?_, ?_⟩
    · simp only [dispatchAll, hstep]
      exact hrun
    · rw [hshape]
      simp only [List.append_assoc]
    · intro e he
      rcases List.mem_append.1 he with h | h
      · simp only [List.mem_cons, List.mem_singleton, List.not_mem_nil, or_false] at h
        rcases h with rfl | rfl <;> rfl
      · exact hpre e h
    · intro x
      rw [hmem x, UnorderedSet.mem_foldl_insert]
      simp only [List.mem_map, List.mem_cons, exists_eq_or_imp]
      constructor
      · rintro ((h | ⟨p, hp, rfl⟩) | h)
        · exact Or.inl h
        · exact Or.inr (Or.inl ⟨q, hq, p, hp, rfl⟩)
        · exact Or.inr (Or.inr h)
      · rintro (h | ⟨q1, hq1, p, hp, rfl⟩ | h)
        · exact Or.inl (Or.inl h)
        · rw [hq] at hq1
          cases hq1
          exact Or.inl (Or.inr ⟨p, hp, rfl⟩)
        · exact Or.inr h

/-- The handler of the notification `initialized`: it re-indexes, runs the slow path on
no file, publishes, computes the hashes unless the fast path is disabled, sets
`initialized`, empties the deferred set, and then calls `handleWatchmanUpdates`,
once and last, with the elements that the deferred set held. -/
theorem initialized_step (env : Env GS Json P Q) (st : LSPLoop GS Json P Q) (gs : GS)
    (msg : LSPMessage Json)
    (hm : env.getByName msg.method = LSPMethod.Initialized)
    (hreply : env.handleReplies st msg = false)
    (hinit : env.ensureInitialized (st.record (.handleReplies msg))
      (env.getByName msg.method) msg gs = true) :
    ∃ (stR : LSPLoop GS Json P Q) (gsR : GS) (mid : List (Event GS Json P Q)) (newGs : GS),
      processRequestInternal env st gs msg = (stR, .ok gsR) ∧
      stR.initialized = true ∧
      stR.deferredWatchmanUpdates = UnorderedSet.empty ∧
      stR.trace = st.trace ++ mid ++
        [.handleWatchmanUpdates newGs st.deferredWatchmanUpdates.elems] ∧
      (∀ e ∈ mid, e.isHandleWatchmanUpdates = false) ∧
      gsR = env.handleWatchmanUpdates { stR with trace := st.trace ++ mid } newGs
        st.deferredWatchmanUpdates.elems := by
  simp only [LSPLoop.record, hm] at hinit
  have htag : LSPMethod.Initialized.isNotification = true := rfl
  have h1 : LSPMethod.Initialized.eq LSPMethod.TextDocumentDidChange = false := by decide
  have h2 : LSPMethod.Initialized.eq LSPMethod.TextDocumentDidOpen = false := by decide
  have h3 : LSPMethod.Initialized.eq LSPMethod.TextDocumentDidClose = false := by decide
  have h4 : LSPMethod.Initialized.eq LSPMethod.SorbetWatchmanFileChange = false := by decide
  have h5 : LSPMethod.Initialized.eq LSPMethod.Initialized = true := by decide
  simp only [processRequestInternal, LSPLoop.record, hm, hreply, hinit, htag,
    processNotification, didChange, didOpen, didClose, watchmanFileChange,
    initializedNotification, h1, h2, h3, h4, h5, Bool.false_eq_true, if_false, if_true,
    Bool.not_true, UnorderedSet.clear]
  generalize env.runSlowPath _ [] = run
  generalize env.pushDiagnostics _ run = newGs
  by_cases hfast : st.disableFastPath = true
  · simp only [hfast, Bool.not_true, Bool.false_eq_true, if_false]
    refine ⟨_, _, [.handleReplies msg, .ensureInitialized LSPMethod.Initialized msg gs,
      .reIndexFromFileSystem, .runSlowPath [], .pushDiagnostics run], newGs, rfl, rfl, rfl,
      ?_, ?_, ?_⟩
    · simp only [List.append_assoc, List.cons_append, List.nil_append]
    · intro e he
      simp only [List.mem_cons, List.mem_singleton, List.not_mem_nil, or_false] at he
      rcases he with rfl | rfl | rfl | rfl | rfl <;> rfl
    · simp only [List.append_assoc, List.cons_append, List.nil_append]
  · have hfast1 : st.disableFastPath = false := by simpa using hfast
    simp only [hfast1, Bool.not_false, if_true]
    refine ⟨_, _, [.handleReplies msg, .ensureInitialized LSPMethod.Initialized msg gs,
      .reIndexFromFileSystem, .runSlowPath [], .pushDiagnostics run,
      .computeStateHashes (env.getFiles newGs)], newGs, rfl, rfl, rfl, ?_, ?_, ?_⟩
    · simp only [List.append_assoc, List.cons_append, List.nil_append]
    · intro e he
      simp only [List.mem_cons, List.mem_singleton, List.not_mem_nil, or_false] at he
      rcases he with rfl | rfl | rfl | rfl | rfl | rfl <;> rfl
    · simp only [List.append_assoc, List.cons_append, List.nil_append]

/-- An opening check is not a call of `handleWatchmanUpdates`. -/
theorem Event.not_isHandleWatchmanUpdates_of_isPrecheck (e : Event GS Json P Q)
    (h : e.isPrecheck = true) : e.isHandleWatchmanUpdates = false := by
  cases e <;> first | rfl | cases h

/-- C8: starting from a loop that is not initialized and whose deferred set is empty,
for every list `ws` of sorbet/watchmanFileChange notifications followed by one
`initialized` notification `done`:
each watchman notification, on any loop that is not initialized, returns the
global state it was given, makes no call after the two opening checks, and
changes the loop only by inserting `rootPath + "/" + p` into the deferred set
for each relative path `p` it lists;
the handler of `done` then calls `handleWatchmanUpdates` last, on a loop whose
member `initialized` is true, with the elements of the deferred set, a
duplicate-free list whose elements are exactly the absolute paths of all files
that the notifications of `ws` list (the empty list when they list none); this is
the only call of `handleWatchmanUpdates` in the whole run, and the deferred set
is empty afterwards. -/
theorem c8_deferred_watchman_updates_are_flushed_once
    (env : Env GS Json P Q) (st : LSPLoop GS Json P Q) (gs : GS)
    (ws : List (LSPMessage Json)) (done : LSPMessage Json)
    (huninit : st.initialized = false)
    (hempty : st.deferredWatchmanUpdates = UnorderedSet.empty)
    (hwatch : ∀ m ∈ ws, env.getByName m.method = LSPMethod.SorbetWatchmanFileChange ∧
      ∃ q, env.parseWatchman m.params = .ok q)
    (hdone : env.getByName done.method = LSPMethod.Initialized)
    (hreply : ∀ s, ∀ m ∈ ws ++ [done], env.handleReplies s m = false)
    (hinit : ∀ s g, ∀ m ∈ ws ++ [done],
      env.ensureInitialized s (env.getByName m.method) m g = true) :
    (∀ m ∈ ws, ∀ (s : LSPLoop GS Json P Q) (g : GS), s.initialized = false →
      ∃ q, env.parseWatchman m.params = .ok q ∧
        processRequestInternal env s g m =
          ({ s with
              deferredWatchmanUpdates :=
                (q.files.map (fun p => s.rootPath ++ "/" ++ p)).foldl
                  UnorderedSet.insert s.deferredWatchmanUpdates,
              trace := s.trace ++
                [.handleReplies m, .ensureInitialized (env.getByName m.method) m g] },
           .ok g)) ∧
    ∃ (stW : LSPLoop GS Json P Q) (pre : List (Event GS Json P Q))
      (stR : LSPLoop GS Json P Q) (gsR : GS) (mid : List (Event GS Json P Q)) (newGs : GS),
      dispatchAll env st gs ws = (stW, .ok gs) ∧
      stW.initialized = false ∧
      stW.trace = st.trace ++ pre ∧
      (∀ e ∈ pre, e.isPrecheck = true) ∧
      dispatchAll env st gs (ws ++ [done]) = (stR, .ok gsR) ∧
      stR.initialized = true ∧
      stR.deferredWatchmanUpdates = UnorderedSet.empty ∧
      stR.trace = stW.trace ++ mid ++
        [.handleWatchmanUpdates newGs stW.deferredWatchmanUpdates.elems] ∧
      (∀ e ∈ mid, e.isHandleWatchmanUpdates = false) ∧
      (stR.trace.drop st.trace.length).countP Event.isHandleWatchmanUpdates = 1 ∧
      gsR = env.handleWatchmanUpdates { stR with trace := stW.trace ++ mid } newGs
        stW.deferredWatchmanUpdates.elems ∧
      stW.deferredWatchmanUpdates.elems.Nodup ∧
      (∀ x, x ∈ stW.deferredWatchmanUpdates.elems ↔
        ∃ m ∈ ws, ∃ q, env.parseWatchman m.params = .ok q ∧
          ∃ p ∈ q.files, x = st.rootPath ++ "/" ++ p) ∧
      ((∀ m ∈ ws, ∀ q, env.parseWatchman m.params = .ok q → q.files = []) →
        stW.deferredWatchmanUpdates.elems = []) := by
  refine ⟨?_, ?_⟩
  · intro m hmem s g hs
    obtain ⟨hm, q, hq⟩ := hwatch m hmem
    exact ⟨q, hq, watchman_step env s g m q hm hq hs
      (hreply s m (List.mem_append_left _ hmem))
      (hinit _ g m (List.mem_append_left _ hmem))⟩
  · obtain ⟨stW, pre, hrun, hshape, hpre, hmem⟩ := watchman_sequence env gs ws hwatch
      (fun s m h => hreply s m (List.mem_append_left _ h))
      (fun s g m h => hinit s g m (List.mem_append_left _ h)) st huninit
    have hdoneMem : done ∈ ws ++ [done] := List.mem_append_right _ (List.mem_singleton_self _)
    obtain ⟨stR, gsR, mid, newGs, hstep, hini, hdef, htrace, hmid, hgs⟩ :=
      initialized_step env stW gs done hdone (hreply stW done hdoneMem)
        (hinit _ gs done hdoneMem)
    have hWtrace : stW.trace = st.trace ++ pre := by rw [hshape]
    have hWinit : stW.initialized = false := by rw [hshape]; exact huninit
    have hmem1 : ∀ x, x ∈ stW.deferredWatchmanUpdates.elems ↔
        ∃ m ∈ ws, ∃ q, env.parseWatchman m.params = .ok q ∧
          ∃ p ∈ q.files, x = st.rootPath ++ "/" ++ p := by
      intro x
      rw [hmem x, hempty]
      simp [UnorderedSet.empty]
    refine ⟨stW, pre, stR, gsR, mid, newGs, hrun, hWinit, hWtrace, hpre, ?_, hini, hdef, htrace,
      hmid, ?_, hgs, stW.deferredWatchmanUpdates.nodup, hmem1, ?_⟩
    · rw [dispatchAll_append, hrun]
      simp only [dispatchAll, hstep]
    · rw [htrace, hWtrace]
      simp only [List.append_assoc, List.drop_left, List.countP_append, List.countP_cons,
        List.countP_nil, Event.isHandleWatchmanUpdates]
      have h1 : pre.countP Event.isHandleWatchmanUpdates = 0 :=
        List.countP_eq_zero.2 (fun e he => by
          rw [Event.not_isHandleWatchmanUpdates_of_isPrecheck e (hpre e he)]
          exact Bool.false_ne_true)
      have h2 : mid.countP Event.isHandleWatchmanUpdates = 0 :=
        List.countP_eq_zero.2 (fun e he => by
          rw [hmid e he]
          exact Bool.false_ne_true)
      simp [h1, h2]
    · intro hnone
      apply List.eq_nil_iff_forall_not_mem.2
      intro x hx
      obtain ⟨m, hm, q, hq, p, hp, _⟩ := (hmem1 x).1 hx
      rw [hnone m hm q hq] at hp
      exact absurd hp (List.not_mem_nil _)

/-- C8, at the loop of the workspace `/w` before initialization, two watchman
notifications that list `a.rb`, `b.rb` and `b.rb`, `c.rb`, and the notification
`initialized`. -/
theorem c8_witness :
    ∃ (stW : LSPLoop Nat Sample.SJson Unit Nat) (pre : List (Event Nat Sample.SJson Unit Nat))
      (stR : LSPLoop Nat Sample.SJson Unit Nat) (gsR : Nat)
      (mid : List (Event Nat Sample.SJson Unit Nat)) (newGs : Nat),
      dispatchAll (Sample.env false) (Sample.loop false) 5
        [Sample.watchmanAB, Sample.watchmanBC] = (stW, .ok 5) ∧
      stW.initialized = false ∧
      stW.trace = (Sample.loop false).trace ++ pre ∧
      (∀ e ∈ pre, e.isPrecheck = true) ∧
      dispatchAll (Sample.env false) (Sample.loop false) 5
        ([Sample.watchmanAB, Sample.watchmanBC] ++ [Sample.initializedMessage]) =
          (stR, .ok gsR) ∧
      stR.initialized = true ∧
      stR.deferredWatchmanUpdates = UnorderedSet.empty ∧
      stR.trace = stW.trace ++ mid ++
        [.handleWatchmanUpdates newGs stW.deferredWatchmanUpdates.elems] ∧
      (∀ e ∈ mid, e.isHandleWatchmanUpdates = false) ∧
      (stR.trace.drop (Sample.loop false).trace.length).countP
        Event.isHandleWatchmanUpdates = 1 ∧
      gsR = (Sample.env false).handleWatchmanUpdates { stR with trace := stW.trace ++ mid }
        newGs stW.deferredWatchmanUpdates.elems ∧
      stW.deferredWatchmanUpdates.elems.Nodup ∧
      (∀ x, x ∈ stW.deferredWatchmanUpdates.elems ↔
        ∃ m ∈ [Sample.watchmanAB, Sample.watchmanBC],
          ∃ q, (Sample.env false).parseWatchman m.params = .ok q ∧
            ∃ p ∈ q.files, x = (Sample.loop false).rootPath ++ "/" ++ p) ∧
      ((∀ m ∈ [Sample.watchmanAB, Sample.watchmanBC],
          ∀ q, (Sample.env false).parseWatchman m.params = .ok q → q.files = []) →
        stW.deferredWatchmanUpdates.elems = []) :=
  (c8_deferred_watchman_updates_are_flushed_once (Sample.env false) (Sample.loop false) 5
    [Sample.watchmanAB, Sample.watchmanBC] Sample.initializedMessage rfl rfl
    (fun m hm => by
      simp only [List.mem_cons, List.mem_singleton, List.not_mem_nil, or_false] at hm
      rcases hm with rfl | rfl <;> exact ⟨rfl, _, rfl⟩)
    rfl
    (fun s m hm => by
      simp only [List.cons_append, List.nil_append, List.mem_cons, List.mem_singleton,
        List.not_mem_nil, or_false] at hm
      rcases hm with rfl | rfl | rfl <;> rfl)
    (fun s g m hm => by
      simp only [List.cons_append, List.nil_append, List.mem_cons, List.mem_singleton,
        List.not_mem_nil, or_false] at hm
      rcases hm with rfl | rfl | rfl <;> cases hs : s.initialized <;>
        simp [Sample.env, hs] <;> decide)).2

/-- A request that is not a reply, passes the initialization check and whose method tag
is not a notification tag reaches the request branch, after the two opening
checks. -/
theorem request_step (env : Env GS Json P Q) (st : LSPLoop GS Json P Q) (gs : GS)
    (msg : LSPMessage Json) (id : MessageId)
    (hreq : msg.envelope = .request id)
    (hreply : env.handleReplies st msg = false)
    (hinit : env.ensureInitialized (st.record (.handleReplies msg))
      (env.getByName msg.method) msg gs = true)
    (htag : (env.getByName msg.method).isNotification = false) :
    processRequestInternal env st gs msg =
      processRequestBranch env
        { st with trace := st.trace ++
            [.handleReplies msg, .ensureInitialized (env.getByName msg.method) msg gs] }
        gs msg (env.getByName msg.method) id := by
  simp only [LSPLoop.record] at hinit
  simp [processRequestInternal, hreq, hreply, hinit, htag, LSPLoop.record]

/-- C17: the LSP error codes have the stated integer values: ParseError = -32700,
InvalidRequest = -32600, MethodNotFound = -32601, InvalidParams = -32602,
InternalError = -32603, ServerNotInitialized = -32002, UnknownErrorCode = -32001,
RequestCancelled = -32800; these eight values are pairwise distinct. -/
theorem c17_error_code_values :
    LSPErrorCodes.ParseError.toInt = -32700 ∧
    LSPErrorCodes.InvalidRequest.toInt = -32600 ∧
    LSPErrorCodes.MethodNotFound.toInt = -32601 ∧
    LSPErrorCodes.InvalidParams.toInt = -32602 ∧
    LSPErrorCodes.InternalError.toInt = -32603 ∧
    LSPErrorCodes.ServerNotInitialized.toInt = -32002 ∧
    LSPErrorCodes.UnknownErrorCode.toInt = -32001 ∧
    LSPErrorCodes.RequestCancelled.toInt = -32800 ∧
    ([LSPErrorCodes.ParseError, LSPErrorCodes.InvalidRequest, LSPErrorCodes.MethodNotFound,
      LSPErrorCodes.InvalidParams, LSPErrorCodes.InternalError,
      LSPErrorCodes.ServerNotInitialized, LSPErrorCodes.UnknownErrorCode,
      LSPErrorCodes.RequestCancelled].map LSPErrorCodes.toInt).Nodup := by
  refine ⟨rfl, rfl, rfl, rfl, rfl, rfl, rfl, rfl, ?_⟩
  decide

/-- A dispatched request whose method is `LSPMethod.Initialize` runs the block of that
method after the two opening checks. -/
theorem initialize_step (env : Env GS Json P Q) (st : LSPLoop GS Json P Q) (gs : GS)
    (msg : LSPMessage Json) (id : MessageId) (rawParams : Json)
    (hreq : msg.envelope = .request id)
    (hcanceled : msg.canceled = false)
    (hparams : msg.params = some rawParams)
    (hm : env.getByName msg.method = LSPMethod.Initialize)
    (hreply : env.handleReplies st msg = false)
    (hinit : env.ensureInitialized (st.record (.handleReplies msg))
      (env.getByName msg.method) msg gs = true) :
    processRequestInternal env st gs msg =
      handleInitialize env
        { st with trace := st.trace ++
            [.handleReplies msg, .ensureInitialized (env.getByName msg.method) msg gs] }
        gs id rawParams := by
  rw [request_step env st gs msg id hreq hreply hinit (by rw [hm]; rfl)]
  have h1 : LSPMethod.Initialize.eq LSPMethod.Initialize = true := by decide
  simp only [processRequestBranch, hcanceled, hparams, hm, h1, Bool.false_eq_true, if_false,
    if_true]

/-- The capabilities that `serverCapabilities` announces, member by member. -/
theorem serverCapabilities_members (opts : Options) :
    (serverCapabilities opts).textDocumentSync = some TextDocumentSyncKind.Full ∧
    (serverCapabilities opts).definitionProvider = some opts.lspGoToDefinitionEnabled ∧
    (serverCapabilities opts).documentSymbolProvider = some opts.lspDocumentSymbolEnabled ∧
    (serverCapabilities opts).workspaceSymbolProvider = some opts.lspWorkspaceSymbolsEnabled ∧
    (serverCapabilities opts).hoverProvider = some opts.lspHoverEnabled ∧
    (serverCapabilities opts).referencesProvider = some opts.lspFindReferencesEnabled ∧
    (opts.lspSignatureHelpEnabled = true →
      (serverCapabilities opts).signatureHelpProvider =
        some { triggerCharacters := ["(", ","] }) ∧
    (opts.lspSignatureHelpEnabled = false →
      (serverCapabilities opts).signatureHelpProvider = none) ∧
    (opts.lspAutocompleteEnabled = true →
      (serverCapabilities opts).completionProvider = some { triggerCharacters := ["."] }) ∧
    (opts.lspAutocompleteEnabled = false →
      (serverCapabilities opts).completionProvider = none) := by
  unfold serverCapabilities
  cases hs : opts.lspSignatureHelpEnabled <;> cases ha : opts.lspAutocompleteEnabled <;> simp

/-- C12: for every dispatched request of method `LSPMethod.Initialize` (a request that
is not a reply, not cancelled, passes the initialization check, and whose
params and initialization options deserialize), the dispatcher makes, after the
two opening checks, the one call `sendResponse` to the id of the request, with
the result whose capabilities have textDocumentSync = Full; definitionProvider,
documentSymbolProvider, workspaceSymbolProvider, hoverProvider and
referencesProvider equal to the feature flags of the options; a
signatureHelpProvider with the trigger characters "(" and "," when signature
help is enabled and none otherwise; a completionProvider with the trigger
character "." when autocomplete is enabled and none otherwise. The global state
is returned unchanged. -/
theorem c12_initialize_announces_server_capabilities
    (env : Env GS Json P Q) (st : LSPLoop GS Json P Q) (gs : GS) (msg : LSPMessage Json)
    (id : MessageId) (rawParams : Json) (params : InitializeParams Json)
    (hreq : msg.envelope = .request id)
    (hcanceled : msg.canceled = false)
    (hparams : msg.params = some rawParams)
    (hm : env.getByName msg.method = LSPMethod.Initialize)
    (hp : env.parseInitializeParams rawParams = .ok params)
    (hoptions : ∀ o, params.initializationOptions = some o → env.isObject o = true →
      ∃ sorbetInitOptions, env.parseSorbetInitializationOptions o = .ok sorbetInitOptions)
    (hreply : env.handleReplies st msg = false)
    (hinit : env.ensureInitialized (st.record (.handleReplies msg))
      (env.getByName msg.method) msg gs = true) :
    (∃ st1 : LSPLoop GS Json P Q,
      processRequestInternal env st gs msg = (st1, .ok gs) ∧
      st1.trace = st.trace ++
        [.handleReplies msg, .ensureInitialized (env.getByName msg.method) msg gs,
         .sendResponse id { capabilities := serverCapabilities st.opts }]) ∧
    (serverCapabilities st.opts).textDocumentSync = some TextDocumentSyncKind.Full ∧
    (serverCapabilities st.opts).definitionProvider = some st.opts.lspGoToDefinitionEnabled ∧
    (serverCapabilities st.opts).documentSymbolProvider =
      some st.opts.lspDocumentSymbolEnabled ∧
    (serverCapabilities st.opts).workspaceSymbolProvider =
      some st.opts.lspWorkspaceSymbolsEnabled ∧
    (serverCapabilities st.opts).hoverProvider = some st.opts.lspHoverEnabled ∧
    (serverCapabilities st.opts).referencesProvider = some st.opts.lspFindReferencesEnabled ∧
    (st.opts.lspSignatureHelpEnabled = true →
      (serverCapabilities st.opts).signatureHelpProvider =
        some { triggerCharacters := ["(", ","] }) ∧
    (st.opts.lspSignatureHelpEnabled = false →
      (serverCapabilities st.opts).signatureHelpProvider = none) ∧
    (st.opts.lspAutocompleteEnabled = true →
      (serverCapabilities st.opts).completionProvider = some { triggerCharacters := ["."] }) ∧
    (st.opts.lspAutocompleteEnabled = false →
      (serverCapabilities st.opts).completionProvider = none) := by
  refine ⟨?_, serverCapabilities_members st.opts⟩
  rw [initialize_step env st gs msg id rawParams hreq hcanceled hparams hm hreply hinit]
  simp only [handleInitialize, hp]
  rcases hopt : params.initializationOptions with _ | o
  · cases hroot : params.rootUri <;>
      exact ⟨_, rfl, by simp [LSPLoop.record]⟩
  · by_cases hobj : env.isObject o = true
    · obtain ⟨so, hso⟩ := hoptions o hopt hobj
      simp only [hobj, hso, if_true]
      cases hroot : params.rootUri <;>
        exact ⟨_, rfl, by simp [LSPLoop.record]⟩
    · simp only [hobj, if_false]
      cases hroot : params.rootUri <;>
        exact ⟨_, rfl, by simp [LSPLoop.record]⟩

/-- C12, at the initialize request `Sample.initializeWithNotifications` on the loop of
the workspace `/w`, whose options enable every feature. -/
theorem c12_witness :
    ∃ st1 : LSPLoop Nat Sample.SJson Unit Nat,
      processRequestInternal (Sample.env false) (Sample.loop false) 5
        Sample.initializeWithNotifications = (st1, .ok 5) ∧
      st1.trace = (Sample.loop false).trace ++
        [.handleReplies Sample.initializeWithNotifications,
         .ensureInitialized
           ((Sample.env false).getByName Sample.initializeWithNotifications.method)
           Sample.initializeWithNotifications 5,
         .sendResponse (.num 1)
           { capabilities := serverCapabilities (Sample.loop false).opts }] :=
  (c12_initialize_announces_server_capabilities (Sample.env false) (Sample.loop false) 5
    Sample.initializeWithNotifications (.num 1)
    (.initializeParams (some "file:///w") { textDocument := none } (some (some true)))
    { rootUri := some "file:///w", capabilities := { textDocument := none },
      initializationOptions := some (.sorbetOptions (some true)) }
    rfl rfl rfl rfl rfl
    (fun o ho _ => by
      cases ho
      exact ⟨_, rfl⟩)
    rfl rfl).1

/-- The flag that `snippetSupportOf` computes is set exactly when the capabilities hold
`textDocument`, `completion`, `completionItem`, and `snippetSupport` is present
and true. -/
theorem snippetSupportOf_eq_true_iff (capabilities : ClientCapabilities) :
    snippetSupportOf capabilities = true ↔
      ∃ textDocument completion completionItem,
        capabilities.textDocument = some textDocument ∧
        textDocument.completion = some completion ∧
        completion.completionItem = some completionItem ∧
        completionItem.snippetSupport = some true := by
  unfold snippetSupportOf
  rcases h1 : capabilities.textDocument with _ | textDocument
  · simp
  · rcases h2 : textDocument.completion with _ | completion
    · simp [h2]
    · rcases h3 : completion.completionItem with _ | completionItem
      · simp [h2, h3]
      · rcases h4 : completionItem.snippetSupport with _ | b
        · simp [h2, h3, h4]
        · cases b <;> simp [h2, h3, h4]

/-- C13: after every dispatched request of method `LSPMethod.Initialize` (not a reply,
not cancelled, passing the initialization check, params present and
deserialized), `clientCompletionItemSnippetSupport` is true if and only if the
capabilities of the request hold `textDocument`, `completion` and
`completionItem`, and `snippetSupport` is present and true; it is false in
every other case. The value the member had before the request plays no part,
and so does the outcome of deserializing the initialization options. -/
theorem c13_initialize_sets_snippet_support
    (env : Env GS Json P Q) (st : LSPLoop GS Json P Q) (gs : GS) (msg : LSPMessage Json)
    (id : MessageId) (rawParams : Json) (params : InitializeParams Json)
    (hreq : msg.envelope = .request id)
    (hcanceled : msg.canceled = false)
    (hparams : msg.params = some rawParams)
    (hm : env.getByName msg.method = LSPMethod.Initialize)
    (hp : env.parseInitializeParams rawParams = .ok params)
    (hreply : env.handleReplies st msg = false)
    (hinit : env.ensureInitialized (st.record (.handleReplies msg))
      (env.getByName msg.method) msg gs = true) :
    (processRequestInternal env st gs msg).1.clientCompletionItemSnippetSupport =
      snippetSupportOf params.capabilities ∧
    ((processRequestInternal env st gs msg).1.clientCompletionItemSnippetSupport = true ↔
      ∃ textDocument completion completionItem,
        params.capabilities.textDocument = some textDocument ∧
        textDocument.completion = some completion ∧
        completion.completionItem = some completionItem ∧
        completionItem.snippetSupport = some true) := by
  have h : (processRequestInternal env st gs msg).1.clientCompletionItemSnippetSupport =
      snippetSupportOf params.capabilities := by
    rw [initialize_step env st gs msg id rawParams hreq hcanceled hparams hm hreply hinit]
    simp only [handleInitialize, hp]
    rcases hopt : params.initializationOptions with _ | o
    · cases hroot : params.rootUri <;> rfl
    · by_cases hobj : env.isObject o = true
      · simp only [hobj, if_true]
        rcases hso : env.parseSorbetInitializationOptions o with what | so <;>
          cases hroot : params.rootUri <;> rfl
      · simp only [hobj, if_false]
        cases hroot : params.rootUri <;> rfl
  exact ⟨h, by rw [h]; exact snippetSupportOf_eq_true_iff _⟩

/-- C13, at the initialize request `Sample.initializeWithSnippets`, which announces
snippet support, on a loop whose flag is false. -/
theorem c13_witness :
    (processRequestInternal (Sample.env false) (Sample.loop false) 5
      Sample.initializeWithSnippets).1.clientCompletionItemSnippetSupport =
      snippetSupportOf Sample.snippetCapabilities ∧
    snippetSupportOf Sample.snippetCapabilities = true :=
  ⟨(c13_initialize_sets_snippet_support (Sample.env false) (Sample.loop false) 5
      Sample.initializeWithSnippets (.num 2)
      (.initializeParams (some "file:///w") Sample.snippetCapabilities none)
      { rootUri := some "file:///w", capabilities := Sample.snippetCapabilities,
        initializationOptions := none }
      rfl rfl rfl rfl rfl rfl rfl).1, rfl⟩

/-- What a dispatched request of method `LSPMethod.Initialize` does to
`enableOperationNotifications`: the member is assigned
`supportsOperationNotifications.value_or(false)` when the initialization
options are present, are an object and deserialize; it keeps the value it had
when the options are absent or are not an object. -/
theorem initialize_enableOperationNotifications
    (env : Env GS Json P Q) (st : LSPLoop GS Json P Q) (gs : GS) (msg : LSPMessage Json)
    (id : MessageId) (rawParams : Json) (params : InitializeParams Json)
    (hreq : msg.envelope = .request id)
    (hcanceled : msg.canceled = false)
    (hparams : msg.params = some rawParams)
    (hm : env.getByName msg.method = LSPMethod.Initialize)
    (hp : env.parseInitializeParams rawParams = .ok params)
    (hreply : env.handleReplies st msg = false)
    (hinit : env.ensureInitialized (st.record (.handleReplies msg))
      (env.getByName msg.method) msg gs = true) :
    (∀ o sorbetInitOptions, params.initializationOptions = some o → env.isObject o = true →
      env.parseSorbetInitializationOptions o = .ok sorbetInitOptions →
      (processRequestInternal env st gs msg).1.enableOperationNotifications =
        sorbetInitOptions.supportsOperationNotifications.getD false) ∧
    (params.initializationOptions = none →
      (processRequestInternal env st gs msg).1.enableOperationNotifications =
        st.enableOperationNotifications) ∧
    (∀ o, params.initializationOptions = some o → env.isObject o = false →
      (processRequestInternal env st gs msg).1.enableOperationNotifications =
        st.enableOperationNotifications) := by
  rw [initialize_step env st gs msg id rawParams hreq hcanceled hparams hm hreply hinit]
  simp only [handleInitialize, hp]
  refine ⟨?_, ?_, ?_⟩
  · intro o so hopt hobj hso
    simp only [hopt, hobj, hso, if_true]
    cases hroot : params.rootUri <;> rfl
  · intro hopt
    simp only [hopt]
    cases hroot : params.rootUri <;> rfl
  · intro o hopt hobj
    simp only [hopt, hobj, Bool.false_eq_true, if_false]
    cases hroot : params.rootUri <;> rfl

/-- C14, at its failing input: the loop of the workspace `/w` receives the initialize
request `Sample.initializeWithNotifications`, whose initialization options set
`supportsOperationNotifications`, and then the initialize request
`Sample.initializeWithSnippets`, which carries no initialization options. Both
are dispatched; after the second, `enableOperationNotifications` is still
true, and `clientCompletionItemSnippetSupport`, which the same block resets, has
followed the second request. -/
theorem c14_second_initialize_keeps_operation_notifications :
    (processRequestInternal (Sample.env false) (Sample.loop false) 5
      Sample.initializeWithNotifications).1.enableOperationNotifications = true ∧
    (Sample.env false).parseInitializeParams
      (.initializeParams (some "file:///w") Sample.snippetCapabilities none) =
        .ok { rootUri := some "file:///w", capabilities := Sample.snippetCapabilities,
              initializationOptions := none } ∧
    (dispatchAll (Sample.env false) (Sample.loop false) 5
      [Sample.initializeWithNotifications,
       Sample.initializeWithSnippets]).1.enableOperationNotifications = true ∧
    (dispatchAll (Sample.env false) (Sample.loop false) 5
      [Sample.initializeWithNotifications,
       Sample.initializeWithSnippets]).1.clientCompletionItemSnippetSupport = true ∧
    ((dispatchAll (Sample.env false) (Sample.loop false) 5
      [Sample.initializeWithNotifications,
       Sample.initializeWithSnippets]).1.trace.countP Event.isSend) = 2 := by
  refine ⟨rfl, rfl, rfl, rfl, rfl⟩

/-- C15, as stated, fails: `Sample.shutdownWithoutParams` is a shutdown request that is
not cancelled, is not a reply and passes the initialization check; it carries
no params, and the dispatcher answers it with the error `InternalError`
(-32603), not with a null result. -/
theorem c15_counterexample_shutdown_without_params :
    Sample.shutdownWithoutParams.isRequest = true ∧
    Sample.shutdownWithoutParams.canceled = false ∧
    (Sample.env false).getByName Sample.shutdownWithoutParams.method = LSPMethod.Shutdown ∧
    (Sample.env false).handleReplies (Sample.loop true) Sample.shutdownWithoutParams = false ∧
    (Sample.env false).ensureInitialized
      ((Sample.loop true).record (.handleReplies Sample.shutdownWithoutParams))
      ((Sample.env false).getByName Sample.shutdownWithoutParams.method)
      Sample.shutdownWithoutParams 5 = true ∧
    processRequestInternal (Sample.env false) (Sample.loop true) 5
        Sample.shutdownWithoutParams =
      ({ Sample.loop true with trace :=
          [.handleReplies Sample.shutdownWithoutParams,
           .ensureInitialized LSPMethod.Shutdown Sample.shutdownWithoutParams 5,
           .sendError (.num 7) (-32603) "Expected parameters, but found none."] }, .ok 5) := by
  refine ⟨rfl, rfl, rfl, rfl, rfl, rfl⟩

/-- C15 (amended): for every shutdown request that is not a reply, is not cancelled,
passes the initialization check and carries params, `processRequestInternal`
makes, after the two opening checks, the one call `sendNullResponse` to the id
of the request (a null result, not an error), assigns no member of the loop,
and returns the global state unchanged. -/
theorem c15_shutdown_answers_null
    (env : Env GS Json P Q) (st : LSPLoop GS Json P Q) (gs : GS) (msg : LSPMessage Json)
    (id : MessageId) (rawParams : Json)
    (hreq : msg.envelope = .request id)
    (hcanceled : msg.canceled = false)
    (hparams : msg.params = some rawParams)
    (hm : env.getByName msg.method = LSPMethod.Shutdown)
    (hreply : env.handleReplies st msg = false)
    (hinit : env.ensureInitialized (st.record (.handleReplies msg))
      (env.getByName msg.method) msg gs = true) :
    processRequestInternal env st gs msg =
      ({ st with trace := st.trace ++
          [.handleReplies msg, .ensureInitialized (env.getByName msg.method) msg gs,
           .sendNullResponse id] }, .ok gs) := by
  rw [request_step env st gs msg id hreq hreply hinit (by rw [hm]; rfl)]
  have h1 : LSPMethod.Shutdown.eq LSPMethod.Initialize = false := by decide
  have h2 : LSPMethod.Shutdown.eq LSPMethod.Shutdown = true := by decide
  simp [processRequestBranch, hcanceled, hparams, hm, h1, h2, LSPLoop.record]

/-- C15 (amended), at the shutdown request with id 7 and null params. -/
theorem c15_witness :
    processRequestInternal (Sample.env false) (Sample.loop true) 5 Sample.shutdownWithParams =
      ({ Sample.loop true with trace := (Sample.loop true).trace ++
          [.handleReplies Sample.shutdownWithParams,
           .ensureInitialized ((Sample.env false).getByName Sample.shutdownWithParams.method)
             Sample.shutdownWithParams 5,
           .sendNullResponse (.num 7)] }, .ok 5) :=
  c15_shutdown_answers_null (Sample.env false) (Sample.loop true) 5 Sample.shutdownWithParams
    (.num 7) .null rfl rfl rfl rfl rfl rfl

/-- A well-formed request for one of the seven query methods, which is not a reply, is
not cancelled and passes the initialization check, is handed to the query
handler of its method. -/
theorem query_step (env : Env GS Json P Q) (st : LSPLoop GS Json P Q) (gs : GS)
    (msg : LSPMessage Json) (id : MessageId) (rawParams : Json) (params : Q)
    (tag : LSPMethod) (handler : QueryHandler)
    (htags : (tag, handler) ∈ queryTags)
    (hreq : msg.envelope = .request id)
    (hcanceled : msg.canceled = false)
    (hparams : msg.params = some rawParams)
    (hm : env.getByName msg.method = tag)
    (hp : env.parseQuery handler rawParams = .ok params)
    (hreply : env.handleReplies st msg = false)
    (hinit : env.ensureInitialized (st.record (.handleReplies msg))
      (env.getByName msg.method) msg gs = true) :
    processRequestInternal env st gs msg =
      ({ st with trace := st.trace ++
          [.handleReplies msg, .ensureInitialized (env.getByName msg.method) msg gs,
           .query handler gs id params] },
       .ok (env.handleQuery handler
          { st with trace := st.trace ++
              [.handleReplies msg, .ensureInitialized (env.getByName msg.method) msg gs] }
          gs id params)) := by
  have htag : (env.getByName msg.method).isNotification = false := by
    rw [hm]
    simp only [queryTags, List.mem_cons, List.mem_singleton, Prod.mk.injEq,
      List.not_mem_nil, or_false] at htags
    rcases htags with ⟨rfl, _⟩ | ⟨rfl, _⟩ | ⟨rfl, _⟩ | ⟨rfl, _⟩ | ⟨rfl, _⟩ | ⟨rfl, _⟩ |
      ⟨rfl, _⟩ <;> rfl
  rw [request_step env st gs msg id hreq hreply hinit htag]
  simp only [queryTags, List.mem_cons, List.mem_singleton, Prod.mk.injEq,
    List.not_mem_nil, or_false] at htags
  rcases htags with ⟨rfl, rfl⟩ | ⟨rfl, rfl⟩ | ⟨rfl, rfl⟩ | ⟨rfl, rfl⟩ | ⟨rfl, rfl⟩ |
    ⟨rfl, rfl⟩ | ⟨rfl, rfl⟩ <;>
  simp [processRequestBranch, hcanceled, hparams, hm, hp, dispatchQuery, LSPLoop.record,
    LSPMethod.eq, LSPMethod.Initialize, LSPMethod.Shutdown,
    LSPMethod.TextDocumentDocumentSymbol, LSPMethod.WorkspaceSymbols,
    LSPMethod.TextDocumentDefinition, LSPMethod.TextDocumentHover,
    LSPMethod.TextDocumentCompletion, LSPMethod.TextDocumentSignatureHelp,
    LSPMethod.TextDocumentRefernces]

/-- C16, as stated, fails: the initialized loop of the workspace `/w` processes the
shutdown request `Sample.shutdownWithParams` and then the hover request
`Sample.hoverRequest` and the didOpen notification `Sample.didOpenA`. No
`InvalidRequest` error is sent; the hover request is handed to its query
handler, and the notification runs a typecheck and inserts `/w/a.rb` into the
open-file set. -/
theorem c16_counterexample_requests_after_shutdown_are_dispatched :
    ((dispatchAll (Sample.env false) (Sample.loop true) 5
      [Sample.shutdownWithParams]).1.trace.countP Event.isSend) = 1 ∧
    ((dispatchAll (Sample.env false) (Sample.loop true) 5
      [Sample.shutdownWithParams, Sample.hoverRequest, Sample.didOpenA]).1.trace.any
        Event.isInvalidRequestError) = false ∧
    ((dispatchAll (Sample.env false) (Sample.loop true) 5
      [Sample.shutdownWithParams, Sample.hoverRequest, Sample.didOpenA]).1.trace.countP
        Event.isQuery) = 1 ∧
    ((dispatchAll (Sample.env false) (Sample.loop true) 5
      [Sample.shutdownWithParams, Sample.hoverRequest, Sample.didOpenA]).1.trace.any
        Event.isTypecheck) = true ∧
    (dispatchAll (Sample.env false) (Sample.loop true) 5
      [Sample.shutdownWithParams, Sample.hoverRequest, Sample.didOpenA]).1.openFiles.elems =
        ["/w/a.rb"] ∧
    (dispatchAll (Sample.env false) (Sample.loop true) 5
      [Sample.shutdownWithParams, Sample.hoverRequest, Sample.didOpenA]).2 = .ok 6 := by
  refine ⟨rfl, rfl, rfl, rfl, rfl, rfl⟩

/-- C16 (amended): the dispatcher keeps no shutting-down state. A dispatched shutdown
request (not a reply, not cancelled, passing the initialization check, with
params) leaves a loop `after` that differs from the loop before only by the
trace (the two opening checks and `sendNullResponse`). On that loop every later
well-formed request for one of the seven query methods that is not a reply, is
not cancelled and passes the initialization check is handed to the query
handler of its method, and no error is sent for it; and every later didOpen
notification for a document under `rootUri` whose path is not ignored, which is
not a reply and passes the initialization check, still inserts the path into
the open-file set and calls `tryFastPath` and `pushDiagnostics`. -/
theorem c16_no_shutting_down_state
    (env : Env GS Json P Q) (st : LSPLoop GS Json P Q) (gs : GS)
    (shutdown : LSPMessage Json) (id : MessageId) (rawParams : Json)
    (after : LSPLoop GS Json P Q)
    (hreq : shutdown.envelope = .request id)
    (hcanceled : shutdown.canceled = false)
    (hparams : shutdown.params = some rawParams)
    (hm : env.getByName shutdown.method = LSPMethod.Shutdown)
    (hreply : env.handleReplies st shutdown = false)
    (hinit : env.ensureInitialized (st.record (.handleReplies shutdown))
      (env.getByName shutdown.method) shutdown gs = true)
    (hafter : after = { st with trace := st.trace ++
      [.handleReplies shutdown, .ensureInitialized (env.getByName shutdown.method) shutdown gs,
       .sendNullResponse id] }) :
    processRequestInternal env st gs shutdown = (after, .ok gs) ∧
    (∀ (later : LSPMessage Json) (laterId : MessageId) (laterParams : Json) (params : Q)
        (tag : LSPMethod) (handler : QueryHandler) (g : GS),
      (tag, handler) ∈ queryTags →
      later.envelope = .request laterId → later.canceled = false →
      later.params = some laterParams → env.getByName later.method = tag →
      env.parseQuery handler laterParams = .ok params →
      env.handleReplies after later = false →
      env.ensureInitialized (after.record (.handleReplies later))
        (env.getByName later.method) later g = true →
      processRequestInternal env after g later =
        ({ after with trace := after.trace ++
            [.handleReplies later, .ensureInitialized (env.getByName later.method) later g,
             .query handler g laterId params] },
         .ok (env.handleQuery handler
            { after with trace := after.trace ++
                [.handleReplies later,
                 .ensureInitialized (env.getByName later.method) later g] }
            g laterId params))) ∧
    (∀ (later : LSPMessage Json) (edits : DidOpenTextDocumentParams) (g : GS),
      env.getByName later.method = LSPMethod.TextDocumentDidOpen →
      env.parseDidOpen later.params = .ok edits →
      startsWith edits.textDocument.uri st.rootUri = true →
      env.isFileIgnored st.rootPath
        (env.remoteName2Local st.rootUri st.rootPath edits.textDocument.uri)
        st.opts.absoluteIgnorePatterns st.opts.relativeIgnorePatterns = false →
      env.handleReplies after later = false →
      env.ensureInitialized (after.record (.handleReplies later))
        (env.getByName later.method) later g = true →
      ∃ (g1 : GS) (run : TypecheckRun GS P),
        processRequestInternal env after g later =
          ({ after with
              openFiles := st.openFiles.insert
                (env.remoteName2Local st.rootUri st.rootPath edits.textDocument.uri),
              trace := after.trace ++
                [.handleReplies later, .ensureInitialized (env.getByName later.method) later g,
                 .tryFastPath g
                   [{ path := env.remoteName2Local st.rootUri st.rootPath
                        edits.textDocument.uri,
                      source := edits.textDocument.text }],
                 .pushDiagnostics run] }, .ok g1)) := by
  refine ⟨?_, ?_, ?_⟩
  · rw [hafter]
    rw [request_step env st gs shutdown id hreq hreply hinit (by rw [hm]; rfl)]
    have h1 : LSPMethod.Shutdown.eq LSPMethod.Initialize = false := by decide
    have h2 : LSPMethod.Shutdown.eq LSPMethod.Shutdown = true := by decide
    simp [processRequestBranch, hcanceled, hparams, hm, h1, h2, LSPLoop.record]
  · intro later laterId laterParams params tag handler g htags hlreq hlcanceled hlparams hlm
      hlp hlreply hlinit
    exact query_step env after g later laterId laterParams params tag handler htags hlreq
      hlcanceled hlparams hlm hlp hlreply hlinit
  · intro later edits g hlm hlp hlocal hkept hlreply hlinit
    subst hafter
    exact didOpen_step env _ g later edits hlm hlp hlocal hkept hlreply hlinit

/-- C16 (amended), at the shutdown request `Sample.shutdownWithParams` on the
initialized loop of the workspace `/w`, followed by the hover request
`Sample.hoverRequest`. -/
theorem c16_witness :
    processRequestInternal (Sample.env false) (Sample.loop true) 5 Sample.shutdownWithParams =
      ({ Sample.loop true with trace := (Sample.loop true).trace ++
          [.handleReplies Sample.shutdownWithParams,
           .ensureInitialized ((Sample.env false).getByName Sample.shutdownWithParams.method)
             Sample.shutdownWithParams 5,
           .sendNullResponse (.num 7)] }, .ok 5) ∧
    ((processRequestInternal (Sample.env false)
      { Sample.loop true with trace := (Sample.loop true).trace ++
          [.handleReplies Sample.shutdownWithParams,
           .ensureInitialized ((Sample.env false).getByName Sample.shutdownWithParams.method)
             Sample.shutdownWithParams 5,
           .sendNullResponse (.num 7)] }
      5 Sample.hoverRequest).1.trace.countP Event.isQuery) = 1 :=
  have h := c16_no_shutting_down_state (Sample.env false) (Sample.loop true) 5
    Sample.shutdownWithParams (.num 7) .null _ rfl rfl rfl rfl rfl rfl rfl
  ⟨h.1, by
    rw [h.2.1 Sample.hoverRequest (.num 8) (.queryParams 0) 0 LSPMethod.TextDocumentHover
      .handleTextDocumentHover 5 (by decide) rfl rfl rfl rfl rfl rfl rfl]
    rfl⟩

/-- One content change keeps the path of the file. -/
theorem applyContentChange_path (env : Env GS Json P Q) (file file1 : File)
    (change : TextDocumentContentChangeEvent)
    (h : applyContentChange env file change = .ok file1) : file1.path = file.path := by
  unfold applyContentChange at h
  rcases hr : change.range with _ | range
  · simp only [hr] at h
    cases h
    rfl
  · simp only [hr] at h
    split at h
    · cases h
    · cases h
      rfl

/-- The loop over the content changes keeps the path of the file. -/
theorem applyContentChanges_path (env : Env GS Json P Q) (file file1 : File)
    (changes : List TextDocumentContentChangeEvent)
    (h : applyContentChanges env file changes = .ok file1) : file1.path = file.path := by
  induction changes generalizing file with
  | nil =>
    simp only [applyContentChanges] at h
    cases h
    rfl
  | cons change rest ih =>
    simp only [applyContentChanges] at h
    rcases hc : applyContentChange env file change with e | file2
    · simp only [hc] at h
      cases h
    · simp only [hc] at h
      rw [ih file2 h, applyContentChange_path env file file2 change hc]

/-- The handler of didChange on a local document that is not ignored, when the loop
over the content changes completes: the file it yields is handed to
`tryFastPath`, alone, and `pushDiagnostics` runs. -/
theorem didChange_step (env : Env GS Json P Q) (st : LSPLoop GS Json P Q) (gs : GS)
    (msg : LSPMessage Json) (edits : DidChangeTextDocumentParams) (base file1 : File)
    (hm : env.getByName msg.method = LSPMethod.TextDocumentDidChange)
    (hp : env.parseDidChange msg.params = .ok edits)
    (hlocal : startsWith edits.textDocument.uri st.rootUri = true)
    (hkept : env.isFileIgnored st.rootPath
      (env.remoteName2Local st.rootUri st.rootPath edits.textDocument.uri)
      st.opts.absoluteIgnorePatterns st.opts.relativeIgnorePatterns = false)
    (hreply : env.handleReplies st msg = false)
    (hinit : env.ensureInitialized (st.record (.handleReplies msg))
      (env.getByName msg.method) msg gs = true)
    (hbase :
      (match env.findFileByPath
          { st with trace := st.trace ++
              [.handleReplies msg, .ensureInitialized (env.getByName msg.method) msg gs] }
          (env.remoteName2Local st.rootUri st.rootPath edits.textDocument.uri) with
        | some current => ({ path := current.path, source := current.source } : File)
        | none =>
          { path := env.remoteName2Local st.rootUri st.rootPath edits.textDocument.uri,
            source := "" }) = base)
    (hloop : applyContentChanges env base edits.contentChanges = .ok file1) :
    ∃ (gs1 : GS) (run : TypecheckRun GS P),
      processRequestInternal env st gs msg =
        ({ st with trace := st.trace ++
            [.handleReplies msg, .ensureInitialized (env.getByName msg.method) msg gs,
             .tryFastPath gs [file1], .pushDiagnostics run] }, .ok gs1) := by
  simp only [LSPLoop.record, hm] at hinit
  simp only [hm] at hbase
  have htag : LSPMethod.TextDocumentDidChange.isNotification = true := rfl
  have h1 : LSPMethod.TextDocumentDidChange.eq LSPMethod.TextDocumentDidChange = true := by
    decide
  simp only [processRequestInternal, LSPLoop.record, hm, hreply, hinit, htag,
    processNotification, didChange, hp, hlocal, hkept, h1, Bool.false_eq_true,
    if_false, if_true, Bool.not_true, List.append_assoc, List.singleton_append,
    List.cons_append, List.nil_append, hbase, hloop]
  exact ⟨_, _, rfl⟩

/-- C11, as stated, fails: `Sample.didChangeOutOfRange` is a didChange notification for
the local URI `file:///w/a.rb`, whose path is not ignored; it is not a reply
and passes the initialization check. Its one content change has a range that
starts at offset 10 of the empty text, so `std::string::replace` throws
`std::out_of_range`, the exception leaves the dispatcher, and no file is handed
to `tryFastPath`. -/
theorem c11_counterexample_out_of_range_change_hands_over_no_file :
    (Sample.env false).getByName Sample.didChangeOutOfRange.method =
      LSPMethod.TextDocumentDidChange ∧
    startsWith "file:///w/a.rb" (Sample.loop true).rootUri = true ∧
    (Sample.env false).isFileIgnored (Sample.loop true).rootPath
      ((Sample.env false).remoteName2Local (Sample.loop true).rootUri
        (Sample.loop true).rootPath "file:///w/a.rb")
      (Sample.loop true).opts.absoluteIgnorePatterns
      (Sample.loop true).opts.relativeIgnorePatterns = false ∧
    (Sample.env false).handleReplies (Sample.loop true) Sample.didChangeOutOfRange = false ∧
    (Sample.env false).ensureInitialized
      ((Sample.loop true).record (.handleReplies Sample.didChangeOutOfRange))
      ((Sample.env false).getByName Sample.didChangeOutOfRange.method)
      Sample.didChangeOutOfRange 5 = true ∧
    (processRequestInternal (Sample.env false) (Sample.loop true) 5
      Sample.didChangeOutOfRange).2 = .error .outOfRange ∧
    (processRequest (Sample.env false) (Sample.loop true) 5
      Sample.didChangeOutOfRange).2 = .error .outOfRange ∧
    ((processRequest (Sample.env false) (Sample.loop true) 5
      Sample.didChangeOutOfRange).1.trace.any Event.isTypecheck) = false := by
  refine ⟨rfl, rfl, rfl, rfl, rfl, rfl, rfl, rfl⟩

/-- C11 (amended): for every textDocument/didChange notification on a URI under
`rootUri` whose local path is not ignored, which is not a reply and passes the
initialization check, and every list of content changes (with a range or
without, in any mix) on which the loop completes without throwing: exactly one
`tryFastPath` call is made, with exactly one file; the path of that file is the
path of the file that the initial state stores for the local path when it
stores one, and the local path itself otherwise. No content change alters the
path of the file it is applied to. -/
theorem c11_didChange_hands_over_one_file_with_unchanged_path
    (env : Env GS Json P Q) (st : LSPLoop GS Json P Q) (gs : GS) (msg : LSPMessage Json)
    (edits : DidChangeTextDocumentParams) (localPath : String)
    (hm : env.getByName msg.method = LSPMethod.TextDocumentDidChange)
    (hp : env.parseDidChange msg.params = .ok edits)
    (hlocal : startsWith edits.textDocument.uri st.rootUri = true)
    (hpath : env.remoteName2Local st.rootUri st.rootPath edits.textDocument.uri = localPath)
    (hkept : env.isFileIgnored st.rootPath localPath st.opts.absoluteIgnorePatterns
      st.opts.relativeIgnorePatterns = false)
    (hreply : env.handleReplies st msg = false)
    (hinit : env.ensureInitialized (st.record (.handleReplies msg))
      (env.getByName msg.method) msg gs = true) :
    (∀ (current file1 : File),
      env.findFileByPath
        { st with trace := st.trace ++
            [.handleReplies msg, .ensureInitialized (env.getByName msg.method) msg gs] }
        localPath = some current →
      applyContentChanges env { path := current.path, source := current.source }
        edits.contentChanges = .ok file1 →
      file1.path = current.path ∧
      ∃ (gs1 : GS) (run : TypecheckRun GS P),
        processRequestInternal env st gs msg =
          ({ st with trace := st.trace ++
              [.handleReplies msg, .ensureInitialized (env.getByName msg.method) msg gs,
               .tryFastPath gs [file1], .pushDiagnostics run] }, .ok gs1)) ∧
    (∀ (file1 : File),
      env.findFileByPath
        { st with trace := st.trace ++
            [.handleReplies msg, .ensureInitialized (env.getByName msg.method) msg gs] }
        localPath = none →
      applyContentChanges env { path := localPath, source := "" }
        edits.contentChanges = .ok file1 →
      file1.path = localPath ∧
      ∃ (gs1 : GS) (run : TypecheckRun GS P),
        processRequestInternal env st gs msg =
          ({ st with trace := st.trace ++
              [.handleReplies msg, .ensureInitialized (env.getByName msg.method) msg gs,
               .tryFastPath gs [file1], .pushDiagnostics run] }, .ok gs1)) ∧
    (∀ (file file1 : File) (change : TextDocumentContentChangeEvent),
      applyContentChange env file change = .ok file1 → file1.path = file.path) ∧
    (∀ (file file1 : File) (changes : List TextDocumentContentChangeEvent),
      applyContentChanges env file changes = .ok file1 → file1.path = file.path) := by
  subst hpath
  refine ⟨?_, ?_, applyContentChange_path env, applyContentChanges_path env⟩
  · intro current file1 hfind hloop
    exact ⟨applyContentChanges_path env _ file1 _ hloop,
      didChange_step env st gs msg edits _ file1 hm hp hlocal hkept hreply hinit
        (by rw [hfind]) hloop⟩
  · intro file1 hfind hloop
    exact ⟨applyContentChanges_path env _ file1 _ hloop,
      didChange_step env st gs msg edits _ file1 hm hp hlocal hkept hreply hinit
        (by rw [hfind]) hloop⟩

/-- C11 (amended), at the didChange notification `Sample.didChangeA` for
`file:///w/a.rb`, a file the initial state does not know: the file handed over
has the path `/w/a.rb` and the text `x = 42`. -/
theorem c11_witness :
    ({ path := "/w/a.rb", source := "x = 42" } : File).path = "/w/a.rb" ∧
    ∃ (gs1 : Nat) (run : TypecheckRun Nat Unit),
      processRequestInternal (Sample.env false) (Sample.loop true) 5 Sample.didChangeA =
        ({ Sample.loop true with trace := (Sample.loop true).trace ++
            [.handleReplies Sample.didChangeA,
             .ensureInitialized ((Sample.env false).getByName Sample.didChangeA.method)
               Sample.didChangeA 5,
             .tryFastPath 5 [{ path := "/w/a.rb", source := "x = 42" }],
             .pushDiagnostics run] }, .ok gs1) :=
  (c11_didChange_hands_over_one_file_with_unchanged_path (Sample.env false)
    (Sample.loop true) 5 Sample.didChangeA
    { textDocument := { uri := "file:///w/a.rb" },
      contentChanges := [{ range := none, text := "x = 1" }, Sample.changeDigit] }
    "/w/a.rb" rfl rfl rfl rfl rfl rfl rfl).2.1 { path := "/w/a.rb", source := "x = 42" }
    rfl rfl

/-- A list that holds a change without a range splits at the last such change. -/
theorem exists_last_full_replacement (changes : List TextDocumentContentChangeEvent)
    (h : ∃ change ∈ changes, change.range = none) :
    ∃ (before : List TextDocumentContentChangeEvent) (full : TextDocumentContentChangeEvent)
      (after : List TextDocumentContentChangeEvent),
      changes = before ++ full :: after ∧ full.range = none ∧
      ∀ change ∈ after, change.range ≠ none := by
  induction changes with
  | nil =>
    obtain ⟨change, hmem, _⟩ := h
    cases hmem
  | cons first rest ih =>
    by_cases hrest : ∃ change ∈ rest, change.range = none
    · obtain ⟨before, full, after, hsplit, hfull, hafter⟩ := ih hrest
      exact ⟨first :: before, full, after, by rw [hsplit]; rfl, hfull, hafter⟩
    · obtain ⟨change, hmem, hnone⟩ := h
      rcases List.mem_cons.1 hmem with rfl | hmem1
      · exact ⟨[], change, rest, rfl, hnone, fun c hc hcn => hrest ⟨c, hc, hcn⟩⟩
      · exact absurd ⟨change, hmem1, hnone⟩ hrest

/-- The loop over a list that continues with a change without a range: when the loop
over the changes before it completes, the rest of the loop starts from the file
of the same path whose text is the text of that change. -/
theorem applyContentChanges_full_replacement (env : Env GS Json P Q) (file : File)
    (before after : List TextDocumentContentChangeEvent)
    (full : TextDocumentContentChangeEvent) (hfull : full.range = none) :
    applyContentChanges env file (before ++ full :: after) =
      match applyContentChanges env file before with
      | .error e => .error e
      | .ok _ => applyContentChanges env { path := file.path, source := full.text } after := by
  induction before generalizing file with
  | nil => simp [applyContentChanges, applyContentChange, hfull]
  | cons change rest ih =>
    simp only [List.cons_append, applyContentChanges]
    rcases hc : applyContentChange env file change with e | file2
    · simp
    · have h2 := ih file2
      rw [applyContentChange_path env file file2 change hc] at h2
      exact h2

/-- C18: for every starting file and every list of content changes that holds at least
one change without a range, the list splits at its last change without a range
into `before`, `full` and `after`, and whenever the loop over the whole list
completes without error, the file it yields is the one that the loop over
`after` alone yields from the file of the same path whose contents are the text
of `full`; in particular, when the last change of the list has no range
(`after` is empty), the resulting contents are exactly its text, whatever the
starting contents and the earlier changes. -/
theorem c18_last_full_replacement_is_the_new_base
    (env : Env GS Json P Q) (file : File) (changes : List TextDocumentContentChangeEvent)
    (h : ∃ change ∈ changes, change.range = none) :
    ∃ (before : List TextDocumentContentChangeEvent) (full : TextDocumentContentChangeEvent)
      (after : List TextDocumentContentChangeEvent),
      changes = before ++ full :: after ∧ full.range = none ∧
      (∀ change ∈ after, change.range ≠ none) ∧
      (∀ file1, applyContentChanges env file changes = .ok file1 →
        applyContentChanges env { path := file.path, source := full.text } after =
          .ok file1) ∧
      (after = [] → ∀ file1, applyContentChanges env file changes = .ok file1 →
        file1.source = full.text ∧ file1.path = file.path) := by
  obtain ⟨before, full, after, hsplit, hfull, hafter⟩ := exists_last_full_replacement changes h
  have hbase : ∀ file1, applyContentChanges env file changes = .ok file1 →
      applyContentChanges env { path := file.path, source := full.text } after =
        .ok file1 := by
    intro file1 hrun
    rw [hsplit, applyContentChanges_full_replacement env file before after full hfull] at hrun
    rcases hb : applyContentChanges env file before with e | file2
    · simp only [hb] at hrun
      cases hrun
    · simp only [hb] at hrun
      exact hrun
  refine ⟨before, full, after, hsplit, hfull, hafter, hbase, ?_⟩
  intro hempty file1 hrun
  have h1 := hbase file1 hrun
  rw [hempty] at h1
  simp only [applyContentChanges] at h1
  cases h1
  exact ⟨rfl, rfl⟩

/-- C18, at the file `x = 1\nfoo` and the changes of `Sample.didChangeA`: a full
replacement by `x = 1`, then the change of the characters 4 to 5 of line 0. -/
theorem c18_witness :
    ∃ (before : List TextDocumentContentChangeEvent) (full : TextDocumentContentChangeEvent)
      (after : List TextDocumentContentChangeEvent),
      [{ range := none, text := "x = 1" }, Sample.changeDigit] = before ++ full :: after ∧
      full.range = none ∧
      (∀ change ∈ after, change.range ≠ none) ∧
      (∀ file1, applyContentChanges (Sample.env false) Sample.fileA
          [{ range := none, text := "x = 1" }, Sample.changeDigit] = .ok file1 →
        applyContentChanges (Sample.env false)
          { path := Sample.fileA.path, source := full.text } after = .ok file1) ∧
      (after = [] → ∀ file1, applyContentChanges (Sample.env false) Sample.fileA
          [{ range := none, text := "x = 1" }, Sample.changeDigit] = .ok file1 →
        file1.source = full.text ∧ file1.path = Sample.fileA.path) :=
  c18_last_full_replacement_is_the_new_base (Sample.env false) Sample.fileA
    [{ range := none, text := "x = 1" }, Sample.changeDigit]
    ⟨{ range := none, text := "x = 1" }, List.mem_cons_self _ _, rfl⟩

/-- Once an exception is the accumulated result, threading leaves it as it is. -/
theorem foldl_threadProcessRequest_error (env : Env GS Json P Q) (st : LSPLoop GS Json P Q)
    (e : Exn) (queue : List (LSPMessage Json)) :
    queue.foldl (threadProcessRequest env) (st, .error e) = (st, .error e) := by
  induction queue with
  | nil => rfl
  | cons message rest ih => simpa [List.foldl_cons, threadProcessRequest] using ih

/-- The loop over the pending queue is the left fold of `processRequest`. -/
theorem processPending_eq_foldl (env : Env GS Json P Q) (st : LSPLoop GS Json P Q) (gs : GS)
    (queue : List (LSPMessage Json)) :
    processPending env st gs queue = queue.foldl (threadProcessRequest env) (st, .ok gs) := by
  induction queue generalizing st gs with
  | nil => rfl
  | cons message rest ih =>
    simp only [processPending, List.foldl_cons, threadProcessRequest]
    rcases h : processRequest env st gs message with ⟨st1, r⟩
    cases r with
    | ok gs1 => exact ih st1 gs1
    | error e => exact (foldl_threadProcessRequest_error env st1 e rest).symm

/-- When threading over a queue ends with a global state, threading over every initial
part of the queue ends with a global state: no call has thrown. -/
theorem foldl_threadProcessRequest_ok_take (env : Env GS Json P Q)
    (queue : List (LSPMessage Json)) (acc : Result GS Json P Q)
    (stR : LSPLoop GS Json P Q) (gsR : GS)
    (h : queue.foldl (threadProcessRequest env) acc = (stR, .ok gsR)) (k : Nat) :
    ∃ stk gsk, (queue.take k).foldl (threadProcessRequest env) acc = (stk, .ok gsk) := by
  induction queue generalizing acc k with
  | nil => exact ⟨stR, gsR, by simpa using h⟩
  | cons message rest ih =>
    rcases acc with ⟨st, r⟩
    cases r with
    | error e =>
      rw [foldl_threadProcessRequest_error] at h
      cases h
    | ok gs =>
      cases k with
      | zero => exact ⟨st, gs, rfl⟩
      | succ k =>
        simp only [List.take_succ_cons, List.foldl_cons] at h ⊢
        exact ih _ h k

/-- C19, as stated, fails: for the batch of `Sample.didChangeOutOfRange` followed by
`Sample.didOpenA`, both messages are left in the pending queue, the call of
`processRequest` on the first throws `std::out_of_range`, which `processRequest`
does not catch, and the second message is never processed: `handleReplies` is
called once and the open-file set stays empty. -/
theorem c19_counterexample_exception_ends_the_loop :
    ([Sample.didChangeOutOfRange, Sample.didOpenA].foldl Sample.enqueueRequest
      QueueState.fresh).pendingRequests = [Sample.didChangeOutOfRange, Sample.didOpenA] ∧
    (processRequests (Sample.env false) Sample.enqueueRequest (Sample.loop true) 5
      [Sample.didChangeOutOfRange, Sample.didOpenA]).2 = .error .outOfRange ∧
    ((processRequests (Sample.env false) Sample.enqueueRequest (Sample.loop true) 5
      [Sample.didChangeOutOfRange, Sample.didOpenA]).1.trace.countP
        Event.isHandleReplies) = 1 ∧
    (processRequests (Sample.env false) Sample.enqueueRequest (Sample.loop true) 5
      [Sample.didChangeOutOfRange, Sample.didOpenA]).1.openFiles.elems = [] ∧
    (processRequest (Sample.env false) (Sample.loop true) 5 Sample.didOpenA).1.openFiles.elems =
      ["/w/a.rb"] := by
  refine ⟨rfl, rfl, rfl, rfl, rfl⟩

/-- C19 (amended): for every batch of messages, `processRequests` enqueues the messages
one by one, in the given order, through `enqueueRequest` into a fresh queue state
(empty pending queue, terminate = false, paused = false, request counter 0), and
then applies `processRequest` to the messages left in the pending queue, front
to back, threading the global state from each call into the next, until the
queue is exhausted or a call throws. What it leaves is the left fold of
`processRequest` over the final pending queue from the loop and the state
given; whenever it returns a state, no call has thrown, so `processRequest` was
applied to every message of the queue, once; and it returns the state given
when the queue ends up empty. -/
theorem c19_processRequests_is_the_left_fold_of_processRequest
    (env : Env GS Json P Q)
    (enqueueRequest : QueueState Json → LSPMessage Json → QueueState Json)
    (st : LSPLoop GS Json P Q) (gs : GS) (messages : List (LSPMessage Json)) :
    (QueueState.fresh : QueueState Json).pendingRequests = [] ∧
    (QueueState.fresh : QueueState Json).terminate = false ∧
    (QueueState.fresh : QueueState Json).paused = false ∧
    (QueueState.fresh : QueueState Json).requestCounter = 0 ∧
    processRequests env enqueueRequest st gs messages =
      (messages.foldl enqueueRequest QueueState.fresh).pendingRequests.foldl
        (threadProcessRequest env) (st, .ok gs) ∧
    (∀ stR gsR, processRequests env enqueueRequest st gs messages = (stR, .ok gsR) →
      ∀ k, ∃ stk gsk,
        ((messages.foldl enqueueRequest QueueState.fresh).pendingRequests.take k).foldl
          (threadProcessRequest env) (st, .ok gs) = (stk, .ok gsk)) ∧
    ((messages.foldl enqueueRequest QueueState.fresh).pendingRequests = [] →
      processRequests env enqueueRequest st gs messages = (st, .ok gs)) := by
  have hfold : processRequests env enqueueRequest st gs messages =
      (messages.foldl enqueueRequest QueueState.fresh).pendingRequests.foldl
        (threadProcessRequest env) (st, .ok gs) := by
    unfold processRequests
    exact processPending_eq_foldl env st gs _
  refine ⟨rfl, rfl, rfl, rfl, hfold, ?_, ?_⟩
  · intro stR gsR hrun k
    rw [hfold] at hrun
    exact foldl_threadProcessRequest_ok_take env _ _ stR gsR hrun k
  · intro hempty
    rw [hfold, hempty]
    rfl

/-- C19 (amended), at the batch of `Sample.didOpenA` followed by `Sample.didCloseA`: both
calls return, and the state returned is the one threaded through them. -/
theorem c19_witness :
    processRequests (Sample.env false) Sample.enqueueRequest (Sample.loop true) 5
        [Sample.didOpenA, Sample.didCloseA] =
      ([Sample.didOpenA, Sample.didCloseA].foldl Sample.enqueueRequest
        QueueState.fresh).pendingRequests.foldl
          (threadProcessRequest (Sample.env false)) (Sample.loop true, .ok 5) ∧
    (processRequests (Sample.env false) Sample.enqueueRequest (Sample.loop true) 5
        [Sample.didOpenA, Sample.didCloseA]).2 = .ok 7 :=
  ⟨(c19_processRequests_is_the_left_fold_of_processRequest (Sample.env false)
      Sample.enqueueRequest (Sample.loop true) 5
      [Sample.didOpenA, Sample.didCloseA]).2.2.2.2.1, rfl⟩

end Theorems

end SorbetLSP
